import Mathlib

/-!
# Authentication and permission guard of the startup API

A shallow embedding of

* `src/constants/enums.js`, `src/constants/rolePermissions.js`
* `src/utils/utility.js` (`verifyJwtToken`, with the process-wide `tokenCache`)
* `src/utils/responseHelper.js` (`setNotAuthorized`, `setForbidden`, `setServerError`)
* `src/middlewares/permission.middleware.js` (`checkPermission`)
* `src/config/config.js` and `generateToken` of `src/utils/utility.js`
* `src/services/user.service.js` (`updateProfile`)
* `src/routes/user.routes.js` (the registrations)
* `src/repositories/base.repository.js` (the pagination of `getAll`)

Stateful code is written in state-passing style: the token cache is an explicit
argument and result, and the effects of one middleware run (calls of the
verifier, of the principal store, of `next`, and the response written) are
recorded in order as a list of events.
-/

namespace StartupApi

/-! ## JavaScript values -/

/-- A thrown JavaScript error value, with the two fields the guard reads. -/
structure JsError where
  name : String
  message : String
deriving DecidableEq, Repr

/-- The values a property read on the `ROLE_PERMISSIONS` object can produce:
`undefined` (no such property), an array of permission strings (an own property),
or a member inherited from `Object.prototype` (a function or the prototype
object itself: truthy and not iterable). -/
inductive JsValue where
  | undefined
  | array (items : List String)
  | inherited (key : String)
deriving DecidableEq, Repr

/-- JavaScript truthiness of a `JsValue`: only `undefined` is falsy here
(arrays, functions and objects are truthy, also the empty array). -/
def JsValue.truthy : JsValue → Bool
  | .undefined => false
  | .array _ => true
  | .inherited _ => true

/-- The expression `v || []`. -/
def JsValue.orEmptyArray (v : JsValue) : JsValue :=
  if v.truthy then v else .array []

/-- Spread `...v` inside an array literal: the elements of an array; a
`TypeError` for a value that is not iterable. `what` is the spelled
expression, which V8 puts in the message. -/
def JsValue.spread (what : String) : JsValue → Except JsError (List String)
  | .array items => .ok items
  | .undefined => .error ⟨"TypeError", what ++ " is not iterable"⟩
  | .inherited _ => .error ⟨"TypeError", what ++ " is not iterable"⟩

/-- The members of a JavaScript `Set` built from an iterable, in insertion
order: each value is kept at its first occurrence only. -/
def jsSet (items : List String) : List String :=
  items.foldl (fun acc x => if x ∈ acc then acc else acc ++ [x]) []

/-- `String.prototype.replace(pattern, replacement)` with a string pattern, on
character lists: only the first occurrence is replaced. -/
def replaceFirstChars (pat rep : List Char) : List Char → List Char
  | [] => if pat = [] then rep else []
  | c :: cs =>
    if pat.isPrefixOf (c :: cs) then rep ++ (c :: cs).drop pat.length
    else c :: replaceFirstChars pat rep cs

/-- `s.replace(pat, rep)` for string arguments. -/
def jsReplace (s pat rep : String) : String :=
  String.mk (replaceFirstChars pat.toList rep.toList s.toList)

/-! ## `constants/enums.js` -/

def ENV_STAGING : String := "staging"
def ENV_PRODUCTION : String := "production"
def ROLE_USER : String := "user"
def ROLE_EMPLOYEE : String := "employee"
def ROLE_ADMIN : String := "admin"

/-! ## `constants/rolePermissions.js` -/

/-- The own properties of the object literal `ROLE_PERMISSIONS`, in the order
they are written. -/
def ROLE_PERMISSIONS : List (String × List String) :=
  [ (ROLE_ADMIN,
      ["user_create", "user_read", "user_update", "user_delete",
       "company_read", "company_update", "report_view", "report_export"]),
    (ROLE_EMPLOYEE, ["user_read", "company_read"]),
    (ROLE_USER, ["user_read"]) ]

/-- The property names every object literal inherits from `Object.prototype`
(V8 / Node.js). A read of one of them on an object that has no own property of
that name yields the inherited member. -/
def objectPrototypeKeys : List String :=
  [ "constructor", "__defineGetter__", "__defineSetter__", "hasOwnProperty",
    "__lookupGetter__", "__lookupSetter__", "isPrototypeOf",
    "propertyIsEnumerable", "toString", "valueOf", "__proto__",
    "toLocaleString" ]

/-- The property read `ROLE_PERMISSIONS[key]`: own properties first, then the
prototype chain, else `undefined`. -/
def ROLE_PERMISSIONS_get (key : String) : JsValue :=
  match ROLE_PERMISSIONS.lookup key with
  | some perms => .array perms
  | none => if key ∈ objectPrototypeKeys then .inherited key else .undefined

def SYSTEM_PERMISSIONS : List String := ["permission_view"]

/-- `[...new Set([...Object.values(ROLE_PERMISSIONS).flat(), ...SYSTEM_PERMISSIONS])]`. -/
def ALL_PERMISSIONS : List String :=
  jsSet ((ROLE_PERMISSIONS.map Prod.snd).flatten ++ SYSTEM_PERMISSIONS)

/-! ## `utils/utility.js`: cached token verification -/

/-- The decoded payload of a credential. `generateToken` signs
`{ id, role }`; the library adds `iat` and, when an expiry duration is given,
`exp` (both in seconds). -/
structure Claims where
  id : String
  role : String
  iat : Nat
  exp : Option Nat
deriving DecidableEq, Repr

/-- The `jsonwebtoken` library call `jwt.verify(token, secret)` at clock time
`now` (milliseconds, `Date.now()`). The library is not part of the repository;
`decode` stands for its parsing and signature check against the process
secret (failing with the error the library throws, a `JsonWebTokenError` for
a malformed token or a bad signature), and the expiry test is the library's
`clockTimestamp >= payload.exp`, with `clockTimestamp = floor(now / 1000)`,
as the specification describes it: invalid, then expired, else the claims. -/
def jwtVerify (decode : String → Except JsError Claims) (now : Nat) (token : String) :
    Except JsError Claims :=
  match decode token with
  | .error e => .error e
  | .ok payload =>
    match payload.exp with
    | some exp =>
      if now / 1000 ≥ exp then .error ⟨"TokenExpiredError", "jwt expired"⟩
      else .ok payload
    | none => .ok payload

/-- One entry of the `node-cache` store: the key, the stored value and the
time `t` (milliseconds) after which the entry is expired. -/
structure CacheEntry where
  key : String
  value : Claims
  t : Nat
deriving DecidableEq, Repr

/-- The state of `tokenCache`, at most one entry per key. -/
abbrev TokenCache := List CacheEntry

/-- `new NodeCache({ stdTTL: 60 })`: the time to live, in seconds. -/
def stdTTL : Nat := 60

/-- The value `tokenCache.get(key)` returns at time `now`: the value of the
entry of that key unless it is expired (`t < now`); an expired entry reads as
absent. What the call does to the table is `TokenCache.afterGet`. -/
def TokenCache.get (cache : TokenCache) (now : Nat) (key : String) : Option Claims :=
  match cache.find? (fun e => e.key == key) with
  | some e => if e.t < now then none else some e.value
  | none => none

/-- The table after the call `tokenCache.get(key)` at time `now`: the library
deletes the entry of the key when it finds it expired (`deleteOnExpire`, its
default), and leaves the table as it is otherwise. -/
def TokenCache.afterGet (cache : TokenCache) (now : Nat) (key : String) : TokenCache :=
  match cache.find? (fun e => e.key == key) with
  | some e => if e.t < now then cache.filter (fun e => e.key != key) else cache
  | none => cache

/-- `tokenCache.set(key, value)` at time `now`: the entry replaces any former
entry of the key and expires `stdTTL` seconds later. -/
def TokenCache.set (cache : TokenCache) (now : Nat) (key : String) (value : Claims) :
    TokenCache :=
  ⟨key, value, now + stdTTL * 1000⟩ :: cache.filter (fun e => e.key != key)

/-- `verifyJwtToken(token)` called at time `now` with cache state `cache`:
the returned claims or the thrown error, and the cache state afterwards. -/
def verifyJwtToken (decode : String → Except JsError Claims) (now : Nat)
    (cache : TokenCache) (token : String) : Except JsError Claims × TokenCache :=
  let table := cache.afterGet now token
  match cache.get now token with
  | some cached => (.ok cached, table)
  | none =>
    match jwtVerify decode now token with
    | .error e => (.error e, table)
    | .ok decoded => (.ok decoded, table.set now token decoded)

/-! ## `utils/responseHelper.js` -/

/-- The status table `constants/responseStatus.json`, as far as the guard
reads it. -/
structure ResponseStatus where
  NOT_AUTHORIZED : Nat
  FORBIDDEN : Nat
  INTERNAL_SERVER_ERROR : Nat
deriving DecidableEq, Repr

/-- Modelled from the spec: `constants/responseStatus.json` is not among the
source files; the specification gives the HTTP status of an authentication
failure as 401, of an authorization failure as 403 and of an unexpected
failure as 500. -/
def responseStatus : ResponseStatus := ⟨401, 403, 500⟩

/-- Modelled from the spec: `constants/responseData.json` is not among the
source files; failure bodies are `status: "error"` with the message as data. -/
def responseData_ERROR : String := "error"

/-- A user document of the principal store (`models/user.model.js`), with the
fields the guard reads. A field that a projection leaves out is `none`. -/
structure UserDoc where
  _id : String
  password : Option String
  role : String
  permissions : Option (List String)
deriving DecidableEq, Repr

/-- The projection `.select('-password')`. -/
def selectMinusPassword (u : UserDoc) : UserDoc :=
  ⟨u._id, none, u.role, u.permissions⟩

/-- What one run of the middleware does, in order. -/
inductive Event where
  /-- The call `verifyJwtToken(token)`. -/
  | verifyJwtToken (token : String)
  /-- The query `User.findById(id).select('-password')`. -/
  | findById (id : String)
  /-- The assignment `req.user = user`. -/
  | setUser (user : UserDoc)
  /-- The construction of the set `allPermissions`, with its members. -/
  | allPermissions (members : List String)
  /-- The call `next()`. -/
  | next
  /-- A line written by `logger.warn`. -/
  | warn (line : String)
  /-- A line written by `logger.error`. -/
  | error (line : String)
  /-- The call `res.status(code)`. -/
  | status (code : Nat)
  /-- The call `res.json` with body `status`, `data: message`. -/
  | json (status : String) (message : String)
deriving DecidableEq, Repr

/-- `setNotAuthorized(res, (message))`. -/
def setNotAuthorized (message : String) : List Event :=
  [.status responseStatus.NOT_AUTHORIZED, .json responseData_ERROR message]

/-- `setForbidden(res, (message))`. -/
def setForbidden (message : String) : List Event :=
  [.status responseStatus.FORBIDDEN, .json responseData_ERROR message]

/-- `setServerError(res, (message))`. -/
def setServerError (message : String) : List Event :=
  [.status responseStatus.INTERNAL_SERVER_ERROR, .json responseData_ERROR message]

/-! ## `middlewares/permission.middleware.js` -/

/-- The parts of the request the guard reads: `req.header('Authorization')`
and `req.cookies.token` (`cookie-parser` is installed, so `req.cookies` is
always an object). -/
structure Request where
  authorization : Option String
  cookieToken : Option String
deriving DecidableEq, Repr

/-- What surrounds one run of the guard: the verification of the library
against the process secret, the principal store, the clock. A store lookup
yields a document, `null` (`none`), or throws. -/
structure World where
  decode : String → Except JsError Claims
  findById : String → Except JsError (Option UserDoc)
  now : Nat

/-- JavaScript truthiness of a string that may be `undefined`. -/
def truthyString : Option String → Bool
  | none => false
  | some s => s != ""

/-- Line 14:
`req.header('Authorization')?.replace('Bearer ', '') || req.cookies.token`. -/
def tokenOf (req : Request) : Option String :=
  let fromHeader := req.authorization.map (fun h => jsReplace h "Bearer " "")
  if truthyString fromHeader then fromHeader else req.cookieToken

/-- The `catch (error)` block of the middleware. -/
def catchBlock (error : JsError) : List Event :=
  if error.name = "JsonWebTokenError" ∨ error.name = "TokenExpiredError" then
    .warn ("permission.middleware.js >>> checkPermission() >>> Auth Error: " ++ error.message)
      :: setNotAuthorized error.message
  else
    .error ("permission.middleware.js >>> checkPermission() >>> Unexpected Error: "
        ++ error.message)
      :: setServerError "Server error during permission check."

/-- Lines 32 to 37: the members of `allPermissions` for the attached user, or
the error thrown while building the set. -/
def allPermissionsOf (user : UserDoc) : Except JsError (List String) :=
  let rolePermissions := (ROLE_PERMISSIONS_get user.role).orEmptyArray
  let userPermissions := user.permissions.getD []
  match rolePermissions.spread "rolePermissions" with
  | .error e => .error e
  | .ok fromRole => .ok (jsSet (fromRole ++ userPermissions))

/-- Lines 32 to 43, after `req.user = user`. -/
def authorize (requiredPermission : String) (user : UserDoc) : List Event :=
  match allPermissionsOf user with
  | .error e => catchBlock e
  | .ok members =>
    .allPermissions members ::
      (if requiredPermission ∈ members then [.next]
       else setForbidden "Access denied. Insufficient permissions.")

/-- One run of the middleware `checkPermission(requiredPermission)` on `req`,
with cache state `cache`: the events in order and the cache state afterwards.
On line 24 the name `error` is not bound (the `catch` parameter is in scope in
the `catch` block only), so evaluating `error.message` throws a
`ReferenceError`, which the `catch` block then handles. -/
def checkPermission (requiredPermission : String) (w : World) (cache : TokenCache)
    (req : Request) : List Event × TokenCache :=
  let token := tokenOf req
  if !truthyString token then
    (setNotAuthorized "Access denied. No token provided.", cache)
  else
    let token := token.getD ""
    match verifyJwtToken w.decode w.now cache token with
    | (.error e, cache1) => (.verifyJwtToken token :: catchBlock e, cache1)
    | (.ok decoded, cache1) =>
      match w.findById decoded.id with
      | .error e => (.verifyJwtToken token :: .findById decoded.id :: catchBlock e, cache1)
      | .ok none =>
        (.verifyJwtToken token :: .findById decoded.id ::
          catchBlock ⟨"ReferenceError", "error is not defined"⟩, cache1)
      | .ok (some stored) =>
        let user := selectMinusPassword stored
        (.verifyJwtToken token :: .findById decoded.id ::
          .setUser user ::
          authorize requiredPermission user, cache1)

/-! ## Reading a run -/

/-- The status codes written by `res.status`, in order. -/
def statusCodes (trace : List Event) : List Nat :=
  trace.filterMap (fun ev => match ev with | .status code => some code | _ => none)

/-- The messages sent by `res.json`, in order. -/
def sentMessages (trace : List Event) : List String :=
  trace.filterMap (fun ev => match ev with | .json _ message => some message | _ => none)

/-- The ids the principal store was queried for, in order. -/
def storeQueries (trace : List Event) : List String :=
  trace.filterMap (fun ev => match ev with | .findById id => some id | _ => none)

/-- The tokens handed to `verifyJwtToken`, in order. -/
def verifications (trace : List Event) : List String :=
  trace.filterMap (fun ev => match ev with | .verifyJwtToken token => some token | _ => none)

/-- The permission sets computed, in order. -/
def permissionSets (trace : List Event) : List (List String) :=
  trace.filterMap (fun ev => match ev with | .allPermissions members => some members | _ => none)

/-- How many times `next()` was called. -/
def nextCalls (trace : List Event) : Nat :=
  trace.count .next

/-- One outcome: `next` once and nothing written, or one response with one of
the three failure codes and no `next`. -/
def OneOutcome (trace : List Event) : Prop :=
  (nextCalls trace = 1 ∧ statusCodes trace = [] ∧ sentMessages trace = []) ∨
    (nextCalls trace = 0 ∧
      (statusCodes trace = [401] ∨ statusCodes trace = [403] ∨ statusCodes trace = [500]) ∧
      ∃ m, sentMessages trace = [m])

/-- Every entry of the cache holds what the library decodes for its key: the
invariant of `tokenCache` under `verifyJwtToken`. -/
def Coherent (decode : String → Except JsError Claims) (cache : TokenCache) : Prop :=
  ∀ e ∈ cache, decode e.key = .ok e.value

/-! ## Sample surroundings, for concrete runs -/

/-- A verifier that accepts four tokens, `tok-admin`, `tok-user`, `tok-ghost`
and `tok-odd`, each expiring at second 1000; every other token is malformed. -/
def sampleDecode (token : String) : Except JsError Claims :=
  if token = "tok-admin" then .ok ⟨"u1", "admin", 900, some 1000⟩
  else if token = "tok-user" then .ok ⟨"u2", "user", 900, some 1000⟩
  else if token = "tok-ghost" then .ok ⟨"u9", "user", 900, some 1000⟩
  else if token = "tok-odd" then .ok ⟨"u7", "user", 900, some 1000⟩
  else .error ⟨"JsonWebTokenError", "jwt malformed"⟩

/-- A store with an admin `u1`, a user `u2` and a record `u7` whose role is the
string `constructor` and which holds the extra grant `user_read`; no record `u9`. -/
def sampleStore (id : String) : Except JsError (Option UserDoc) :=
  if id = "u1" then .ok (some ⟨"u1", some "hash1", "admin", some []⟩)
  else if id = "u2" then .ok (some ⟨"u2", some "hash2", "user", some []⟩)
  else if id = "u7" then .ok (some ⟨"u7", some "hash7", "constructor", some ["user_read"]⟩)
  else .ok none

/-- The sample surroundings at clock time `now`. -/
def sampleWorld (now : Nat) : World := ⟨sampleDecode, sampleStore, now⟩

/-- Surroundings in which every token verifies with the claims `claims` and
the store answers every query with `record`. -/
def fixedWorld (claims : Claims) (record : Option UserDoc) (now : Nat) : World :=
  ⟨fun _ => .ok claims, fun _ => .ok record, now⟩

/-- Surroundings in which every token verifies with the claims `claims` and
the store cannot be reached: every query throws. -/
def storeDownWorld (claims : Claims) (now : Nat) : World :=
  ⟨fun _ => .ok claims,
    fun _ => .error ⟨"MongooseServerSelectionError", "connect ECONNREFUSED"⟩, now⟩

/-- The messages the guard writes out itself (lines 17, 42 and 51). -/
def guardMessages : List String :=
  [ "Access denied. No token provided.",
    "Access denied. Insufficient permissions.",
    "Server error during permission check." ]

/-- A verifier for a principal whose role changed after a token was issued: the
token `tok-old` carries the role `admin`, every other token the role `user`,
all for the principal `u2`. -/
def roleChangeDecode (token : String) : Except JsError Claims :=
  if token = "tok-old" then .ok ⟨"u2", "admin", 100, none⟩
  else .ok ⟨"u2", "user", 900, none⟩

/-! ## `config/config.js` and `generateToken` of `utils/utility.js` -/

/-- The variables of `process.env` that the token settings read: each is a
string or absent. -/
structure ProcessEnv where
  STAGE : Option String
  JWT_SECRET : Option String
  JWT_EXPIRES_IN : Option String
  JWT_STAGING_EXPIRES_IN : Option String
deriving DecidableEq, Repr

/-- The fields of the exported `config` object that the token code reads. -/
structure Config where
  STAGE : String
  JWT_SECRET : String
  JWT_EXPIRES_IN : String
  JWT_STAGING_EXPIRES_IN : String
deriving DecidableEq, Repr

/-- The expression `process.env.NAME || fallback`. -/
def envOr (value : Option String) (fallback : String) : String :=
  if truthyString value then value.getD fallback else fallback

/-- The object `config` as `config.js` builds it from the environment. -/
def config (env : ProcessEnv) : Config :=
  ⟨envOr env.STAGE "development", envOr env.JWT_SECRET "default-secret",
    envOr env.JWT_EXPIRES_IN "7d", envOr env.JWT_STAGING_EXPIRES_IN "30d"⟩

/-- The arguments of a call `jwt.sign(payload, secret, (expiresIn))`. -/
structure SignCall where
  payload : List (String × String)
  secret : String
  expiresIn : String
deriving DecidableEq, Repr

/-- `generateToken(payload)`: the call of `jwt.sign` it makes. -/
def generateToken (serverConfig : Config) (payload : List (String × String)) : SignCall :=
  let secret := serverConfig.JWT_SECRET
  let expiresIn :=
    if serverConfig.STAGE = ENV_STAGING then serverConfig.JWT_STAGING_EXPIRES_IN else "24h"
  ⟨payload, secret, expiresIn⟩

/-- The length in seconds of a duration string made of decimal digits and one
of the units `s`, `m`, `h`, `d`, as the token library reads an `expiresIn`
string such as `24h`, `7d` or `30d`; `none` for any other string. -/
def durationSeconds (s : String) : Option Nat :=
  let digits := s.toList.takeWhile Char.isDigit
  let unit := s.toList.dropWhile Char.isDigit
  let n := digits.foldl (fun acc c => 10 * acc + (c.toNat - 48)) 0
  if digits = [] then none
  else if unit = ['s'] then some n
  else if unit = ['m'] then some (n * 60)
  else if unit = ['h'] then some (n * 3600)
  else if unit = ['d'] then some (n * 86400)
  else none

/-! ## `services/user.service.js`: `updateProfile` -/

/-- A plain JavaScript object: its own enumerable properties in order, each a
key with a value (written as JSON text). -/
abbrev JsObject := List (String × String)

/-- The rest pattern `const (password, role, ...safeUpdateData) = updateData`:
the properties of `updateData` other than `password` and `role`. -/
def safeUpdateDataOf (updateData : JsObject) : JsObject :=
  updateData.filter (fun kv => kv.1 != "password" && kv.1 != "role")

/-- One call `userRepository.updateById(id, updateData, populate)`. -/
structure UpdateByIdCall where
  id : String
  updateData : JsObject
  populate : String
deriving DecidableEq, Repr

/-- `updateProfile(userId, updateData)` with the repository method `updateById`
as a parameter (it resolves to the updated document, to `null`, or throws):
the calls of `updateById` made, and the profile returned or the error thrown. -/
def updateProfile (updateById : UpdateByIdCall → Except JsError (Option JsObject))
    (userId : String) (updateData : JsObject) :
    List UpdateByIdCall × Except JsError JsObject :=
  let safeUpdateData := safeUpdateDataOf updateData
  let call : UpdateByIdCall := ⟨userId, safeUpdateData, "companyEmployee"⟩
  match updateById call with
  | .error e => ([call], .error e)
  | .ok none => ([call], .error ⟨"Error", "User not found"⟩)
  | .ok (some updatedUser) =>
    ([call], .ok (updatedUser.filter (fun kv => kv.1 != "password")))

/-! ## `routes/user.routes.js` -/

/-- One registration on the router: the method, the path, and the permission
given to `checkPermission` in front of the handler (`none` when the handler
is registered without the guard). -/
structure Route where
  method : String
  path : String
  permission : Option String
deriving DecidableEq, Repr

/-- The registrations of `user.routes.js`, in order. -/
def userRoutes : List Route :=
  [ ⟨"POST", "/user/create-user", some "user_create"⟩,
    ⟨"GET", "/user/get-all-permissions", some "permission_view"⟩,
    ⟨"GET", "/user/get-all-users", some "user_read"⟩,
    ⟨"GET", "/user/get-user-stats", some "user_read"⟩,
    ⟨"GET", "/user/search-users", some "user_read"⟩,
    ⟨"GET", "/user/get-users-by-role/:role", some "user_read"⟩,
    ⟨"GET", "/user/get-user-by-email/:email", some "user_read"⟩,
    ⟨"GET", "/user/:id/get-user", some "user_read"⟩,
    ⟨"PUT", "/user/:id/update-user", some "user_update"⟩,
    ⟨"DELETE", "/user/:id/delete-user", some "user_delete"⟩,
    ⟨"GET", "/user/:id/get-user-profile", some "user_read"⟩,
    ⟨"PUT", "/user/:id/update-user-profile", some "user_update"⟩,
    ⟨"PUT", "/user/:id/update-user-password", some "user_update"⟩,
    ⟨"POST", "/user/login", none⟩,
    ⟨"PUT", "/user/:id/deactivate-user", some "user_update"⟩,
    ⟨"PUT", "/user/:id/reactivate-user", some "user_update"⟩ ]

/-! ## `repositories/base.repository.js`: the page window of `getAll` -/

/-- The value of `Math.ceil(totalCount / limit)`: a finite integer, or
`Infinity` or `NaN` when the division is by zero. -/
inductive PageCount where
  | finite (n : Int)
  | infinity
  | nan
deriving DecidableEq, Repr

/-- Rounding of a rational number to the nearest integer, a tie going to the
even one. -/
def roundHalfEven (y : ℚ) : Int :=
  let f := ⌊y⌋
  if y - f < 1 / 2 then f
  else if 1 / 2 < y - f then f + 1
  else if f % 2 = 0 then f else f + 1

/-- The JavaScript number (IEEE 754 double) that an arithmetic operation with
the exact result `x` yields: the nearest number with a significand of 53
bits, a tie going to the even significand, the unit in the last place never
below that of the subnormal numbers. Overflow to `Infinity` is left out: a
count divided by a whole non-zero limit and a page plus or minus one do not
exceed their operands in magnitude. -/
def toDouble (x : ℚ) : ℚ :=
  if x = 0 then 0
  else
    let e := max (Int.log 2 |x| - 52) (-1074)
    (roundHalfEven (x / 2 ^ e) : ℚ) * 2 ^ e

/-- `Math.ceil(totalCount / limit)` for numbers `totalCount >= 0` and `limit`
that hold integers: the quotient is rounded to a double, then the ceiling is
taken. -/
def totalPagesOf (totalCount limit : Int) : PageCount :=
  if limit = 0 then (if totalCount = 0 then .nan else .infinity)
  else .finite ⌈toDouble ((totalCount : ℚ) / (limit : ℚ))⌉

/-- The comparison `page < totalPages`. -/
def PageCount.gt (totalPages : PageCount) (page : Int) : Bool :=
  match totalPages with
  | .finite n => decide (page < n)
  | .infinity => true
  | .nan => false

/-- The object `pagination` that `getAll` returns. -/
structure Pagination where
  currentPage : Int
  totalPages : PageCount
  totalCount : Int
  limit : Int
  hasNextPage : Bool
  hasPrevPage : Bool
  nextPage : Option ℚ
  prevPage : Option ℚ
deriving DecidableEq, Repr

/-- The pagination part of `getAll`, for the options `page` and `limit` and the
result `totalCount` of `countDocuments`, all three JavaScript numbers that
hold integers; `page + 1` and `page - 1` are rounded to doubles. -/
def paginationOf (page limit totalCount : Int) : Pagination :=
  let totalPages := totalPagesOf totalCount limit
  let hasNextPage := totalPages.gt page
  let hasPrevPage := decide (page > 1)
  ⟨page, totalPages, totalCount, limit, hasNextPage, hasPrevPage,
    if hasNextPage then some (toDouble ((page : ℚ) + 1)) else none,
    if hasPrevPage then some (toDouble ((page : ℚ) - 1)) else none⟩

/-! ## Lemmas on the pieces -/

theorem mem_foldl_jsSet (items acc : List String) (x : String) :
    x ∈ items.foldl (fun acc x => if x ∈ acc then acc else acc ++ [x]) acc ↔
      x ∈ acc ∨ x ∈ items := by
  induction items generalizing acc with
  | nil => simp
  | cons y ys ih =>
    simp only [List.foldl_cons, ih, List.mem_cons]
    by_cases hy : y ∈ acc
    · simp only [hy, if_true]
      constructor
      · rintro (h | h)
        · exact Or.inl h
        · exact Or.inr (Or.inr h)
      · rintro (h | h | h)
        · exact Or.inl h
        · exact Or.inl (h ▸ hy)
        · exact Or.inr h
    · simp only [hy, if_false, List.mem_append, List.mem_singleton]
      tauto

/-- A value is in the set exactly when it is among the items it was built from. -/
theorem mem_jsSet (items : List String) (x : String) : x ∈ jsSet items ↔ x ∈ items := by
  simp [jsSet, mem_foldl_jsSet]

theorem catchBlock_auth (e : JsError)
    (h : e.name = "JsonWebTokenError" ∨ e.name = "TokenExpiredError") :
    catchBlock e =
      .warn ("permission.middleware.js >>> checkPermission() >>> Auth Error: " ++ e.message)
        :: setNotAuthorized e.message := by
  simp [catchBlock, h]

theorem catchBlock_other (e : JsError)
    (h1 : e.name ≠ "JsonWebTokenError") (h2 : e.name ≠ "TokenExpiredError") :
    catchBlock e =
      .error ("permission.middleware.js >>> checkPermission() >>> Unexpected Error: "
          ++ e.message)
        :: setServerError "Server error during permission check." := by
  simp [catchBlock, h1, h2]

/-- The `catch` block never answers 403, queries nothing and never calls `next`. -/
theorem catchBlock_shape (e : JsError) :
    (statusCodes (catchBlock e) = [401] ∨ statusCodes (catchBlock e) = [500]) ∧
      storeQueries (catchBlock e) = [] ∧ nextCalls (catchBlock e) = 0 ∧
      permissionSets (catchBlock e) = [] ∧ verifications (catchBlock e) = [] := by
  unfold catchBlock
  split <;>
    simp [statusCodes, storeQueries, nextCalls, permissionSets, verifications,
      setNotAuthorized, setServerError, responseStatus]

/-- A role that is neither an own key of the table nor inherited reads as `undefined`. -/
theorem ROLE_PERMISSIONS_get_unknown (role : String)
    (h1 : role ≠ "user") (h2 : role ≠ "employee") (h3 : role ≠ "admin")
    (h4 : role ∉ objectPrototypeKeys) : ROLE_PERMISSIONS_get role = .undefined := by
  have hl : ROLE_PERMISSIONS.lookup role = none := by
    simp [ROLE_PERMISSIONS, List.lookup, ROLE_ADMIN, ROLE_EMPLOYEE, ROLE_USER,
      beq_eq_false_iff_ne.mpr h1, beq_eq_false_iff_ne.mpr h2, beq_eq_false_iff_ne.mpr h3]
  simp [ROLE_PERMISSIONS_get, hl, h4]

theorem truthyString_eq_true (o : Option String) :
    truthyString o = true ↔ ∃ t, o = some t ∧ t ≠ "" := by
  cases o with
  | none => simp [truthyString]
  | some t => simp [truthyString]

theorem status_forbidden_not_mem_catchBlock (e : JsError) :
    Event.status 403 ∉ catchBlock e := by
  unfold catchBlock
  split <;> simp [setNotAuthorized, setServerError, responseStatus]

/-- The run of the guard once a truthy token was extracted. -/
theorem checkPermission_with_token (requiredPermission : String) (w : World)
    (cache : TokenCache) (req : Request) (token : String)
    (htoken : tokenOf req = some token) (hne : token ≠ "") :
    checkPermission requiredPermission w cache req =
      match verifyJwtToken w.decode w.now cache token with
      | (.error e, cache1) => (.verifyJwtToken token :: catchBlock e, cache1)
      | (.ok decoded, cache1) =>
        match w.findById decoded.id with
        | .error e => (.verifyJwtToken token :: .findById decoded.id :: catchBlock e, cache1)
        | .ok none =>
          (.verifyJwtToken token :: .findById decoded.id ::
            catchBlock ⟨"ReferenceError", "error is not defined"⟩, cache1)
        | .ok (some stored) =>
          (.verifyJwtToken token :: .findById decoded.id ::
            .setUser (selectMinusPassword stored) ::
            authorize requiredPermission (selectMinusPassword stored), cache1) := by
  simp [checkPermission, htoken, truthyString, hne]

/-! ## The token cache -/

theorem jwtVerify_ok_decode (decode : String → Except JsError Claims) (now : Nat)
    (token : String) (c : Claims) (h : jwtVerify decode now token = .ok c) :
    decode token = .ok c := by
  unfold jwtVerify at h
  cases hd : decode token with
  | error e => rw [hd] at h; cases h
  | ok payload =>
    rw [hd] at h
    cases hexp : payload.exp with
    | none => simp [hexp] at h; rw [h]
    | some exp =>
      simp only [hexp] at h
      split at h
      · cases h
      · cases h; rfl

/-- An expired credential: the library throws `TokenExpiredError`. -/
theorem jwtVerify_expired (decode : String → Except JsError Claims) (now : Nat)
    (token : String) (payload : Claims) (exp : Nat) (hd : decode token = .ok payload)
    (hexp : payload.exp = some exp) (hpassed : exp ≤ now / 1000) :
    jwtVerify decode now token = .error ⟨"TokenExpiredError", "jwt expired"⟩ := by
  simp [jwtVerify, hd, hexp, hpassed]

/-- An entry that reads as absent stays absent at every later time. -/
theorem TokenCache.get_none_later (cache : TokenCache) (now later : Nat) (key : String)
    (h : cache.get now key = none) (hle : now ≤ later) : cache.get later key = none := by
  unfold TokenCache.get at h ⊢
  cases hf : cache.find? (fun e => e.key == key) with
  | none => rfl
  | some e =>
    rw [hf] at h
    simp only at h ⊢
    by_cases ht : e.t < now
    · have : e.t < later := lt_of_lt_of_le ht hle
      simp [this]
    · simp [ht] at h

/-- The entry just stored is read back until its time to live has passed. -/
theorem TokenCache.get_set (cache : TokenCache) (now later : Nat) (key : String)
    (value : Claims) (h : later ≤ now + stdTTL * 1000) :
    (cache.set now key value).get later key = some value := by
  have : ¬ (now + stdTTL * 1000 < later) := not_lt.mpr h
  simp [TokenCache.get, TokenCache.set, this]

/-- In a coherent cache a hit returns what the library decodes for the key. -/
theorem Coherent.get (decode : String → Except JsError Claims) (cache : TokenCache)
    (hcoh : Coherent decode cache) (now : Nat) (key : String) (c : Claims)
    (h : cache.get now key = some c) : decode key = .ok c := by
  unfold TokenCache.get at h
  cases hf : cache.find? (fun e => e.key == key) with
  | none => rw [hf] at h; cases h
  | some e =>
    rw [hf] at h
    simp only at h
    have hkey : e.key = key := by
      have := List.find?_some hf
      simpa using this
    have hmem : e ∈ cache := List.mem_of_find?_eq_some hf
    split at h
    · cases h
    · cases h
      rw [← hkey]
      exact hcoh e hmem

/-- The empty cache, with which the process starts, is coherent. -/
theorem coherent_nil (decode : String → Except JsError Claims) : Coherent decode [] := by
  intro e he
  cases he

/-- A read that hits leaves the table as it is. -/
theorem TokenCache.afterGet_of_hit (cache : TokenCache) (now : Nat) (key : String)
    (c : Claims) (h : cache.get now key = some c) : cache.afterGet now key = cache := by
  unfold TokenCache.get at h
  unfold TokenCache.afterGet
  cases hf : cache.find? (fun e => e.key == key) with
  | none => rfl
  | some e =>
    rw [hf] at h
    simp only at h ⊢
    by_cases ht : e.t < now
    · simp [ht] at h
    · simp [ht]

/-- A read that misses leaves the table without any entry of the key: the
expired entry, if the table held one, is dropped. -/
theorem TokenCache.afterGet_of_miss (cache : TokenCache) (now : Nat) (key : String)
    (h : cache.get now key = none) :
    cache.afterGet now key = cache.filter (fun e => e.key != key) := by
  unfold TokenCache.get at h
  unfold TokenCache.afterGet
  cases hf : cache.find? (fun e => e.key == key) with
  | none =>
    simp only
    symm
    rw [List.filter_eq_self]
    intro a ha
    have := List.find?_eq_none.mp hf a ha
    simpa using this
  | some e =>
    rw [hf] at h
    simp only at h ⊢
    by_cases ht : e.t < now
    · simp [ht]
    · simp [ht] at h

/-- The read adds nothing to the table. -/
theorem TokenCache.mem_of_mem_afterGet (cache : TokenCache) (now : Nat) (key : String)
    (e : CacheEntry) (h : e ∈ cache.afterGet now key) : e ∈ cache := by
  unfold TokenCache.afterGet at h
  cases hf : cache.find? (fun e => e.key == key) with
  | none => rw [hf] at h; exact h
  | some e0 =>
    rw [hf] at h
    simp only at h
    by_cases ht : e0.t < now
    · simp only [ht, if_true] at h
      exact (List.mem_filter.mp h).1
    · simp only [ht, if_false] at h
      exact h

/-- Dropping the entries of a key does not change what is read for another key. -/
theorem TokenCache.get_filter_other (cache : TokenCache) (t : Nat) (key other : String)
    (hne : other ≠ key) :
    TokenCache.get (cache.filter (fun e => e.key != key)) t other = cache.get t other := by
  unfold TokenCache.get
  have hfind : (cache.filter (fun e => e.key != key)).find? (fun e => e.key == other) =
      cache.find? (fun e => e.key == other) := by
    induction cache with
    | nil => rfl
    | cons a l ih =>
      by_cases hk : a.key = key
      · have hdrop : (a :: l).filter (fun e => e.key != key) =
            l.filter (fun e => e.key != key) := by
          apply List.filter_cons_of_neg
          simp [hk]
        have hno : (a.key == other) = false := by
          rw [beq_eq_false_iff_ne]
          intro h
          exact hne (h.symm.trans hk)
        rw [hdrop, ih]
        simp only [List.find?_cons, hno]
      · have hkeep : (a :: l).filter (fun e => e.key != key) =
            a :: l.filter (fun e => e.key != key) := by
          apply List.filter_cons_of_pos
          simp [hk]
        rw [hkeep]
        cases ho : (a.key == other) with
        | true => simp only [List.find?_cons, ho]
        | false => simp only [List.find?_cons, ho, ih]
  rw [hfind]

/-- After the entries of a key are dropped the key reads as absent. -/
theorem TokenCache.get_filter_self (cache : TokenCache) (t : Nat) (key : String) :
    TokenCache.get (cache.filter (fun e => e.key != key)) t key = none := by
  unfold TokenCache.get
  have hfind : (cache.filter (fun e => e.key != key)).find? (fun e => e.key == key) = none := by
    rw [List.find?_eq_none]
    intro a ha
    have := (List.mem_filter.mp ha).2
    simpa using this
  rw [hfind]

/-- Coherence is kept by every call of `verifyJwtToken`. -/
theorem verifyJwtToken_coherent (decode : String → Except JsError Claims) (now : Nat)
    (cache : TokenCache) (token : String) (hcoh : Coherent decode cache) :
    Coherent decode (verifyJwtToken decode now cache token).2 := by
  have htable : Coherent decode (cache.afterGet now token) := fun e he =>
    hcoh e (TokenCache.mem_of_mem_afterGet cache now token e he)
  unfold verifyJwtToken
  cases hg : cache.get now token with
  | some cached => exact htable
  | none =>
    simp only
    cases hv : jwtVerify decode now token with
    | error e => exact htable
    | ok decoded =>
      intro e he
      simp only [TokenCache.set, List.mem_cons, List.mem_filter] at he
      rcases he with rfl | ⟨hmem, _⟩
      · exact jwtVerify_ok_decode decode now token decoded hv
      · exact htable e hmem

/-- A hit in the cache decides the call. -/
theorem verifyJwtToken_of_hit (decode : String → Except JsError Claims) (now : Nat)
    (cache : TokenCache) (token : String) (cached : Claims)
    (hhit : cache.get now token = some cached) :
    verifyJwtToken decode now cache token = (.ok cached, cache) := by
  simp [verifyJwtToken, hhit, TokenCache.afterGet_of_hit cache now token cached hhit]

/-- A miss in the cache hands the call to the library; a failure stores nothing. -/
theorem verifyJwtToken_of_miss_error (decode : String → Except JsError Claims) (now : Nat)
    (cache : TokenCache) (token : String) (e : JsError)
    (hmiss : cache.get now token = none) (hv : jwtVerify decode now token = .error e) :
    verifyJwtToken decode now cache token = (.error e, cache.afterGet now token) := by
  simp [verifyJwtToken, hmiss, hv]

/-- A miss in the cache hands the call to the library; a success is stored. -/
theorem verifyJwtToken_of_miss_ok (decode : String → Except JsError Claims) (now : Nat)
    (cache : TokenCache) (token : String) (decoded : Claims)
    (hmiss : cache.get now token = none) (hv : jwtVerify decode now token = .ok decoded) :
    verifyJwtToken decode now cache token =
      (.ok decoded, (cache.afterGet now token).set now token decoded) := by
  simp [verifyJwtToken, hmiss, hv]

/-- Away from the inherited names the permission set is built without error
from the defaults of the role (none for a role the table does not list) and
the grants of the user. -/
theorem allPermissionsOf_of_not_inherited (user : UserDoc)
    (h : user.role ∉ objectPrototypeKeys) :
    allPermissionsOf user =
      .ok (jsSet ((ROLE_PERMISSIONS.lookup user.role).getD [] ++ user.permissions.getD [])) := by
  unfold allPermissionsOf ROLE_PERMISSIONS_get
  cases hl : ROLE_PERMISSIONS.lookup user.role with
  | some perms => simp [JsValue.orEmptyArray, JsValue.truthy, JsValue.spread]
  | none => simp [h, JsValue.orEmptyArray, JsValue.truthy, JsValue.spread]

/-- For a role that is an inherited name and not a key of the table, building
the permission set throws a `TypeError`. -/
theorem allPermissionsOf_of_inherited (user : UserDoc)
    (h : user.role ∈ objectPrototypeKeys) :
    allPermissionsOf user = .error ⟨"TypeError", "rolePermissions is not iterable"⟩ := by
  have hl : ROLE_PERMISSIONS.lookup user.role = none := by
    have h1 : user.role ≠ "admin" := by rintro heq; rw [heq] at h; revert h; decide
    have h2 : user.role ≠ "employee" := by rintro heq; rw [heq] at h; revert h; decide
    have h3 : user.role ≠ "user" := by rintro heq; rw [heq] at h; revert h; decide
    simp [ROLE_PERMISSIONS, List.lookup, ROLE_ADMIN, ROLE_EMPLOYEE, ROLE_USER,
      beq_eq_false_iff_ne.mpr h1, beq_eq_false_iff_ne.mpr h2, beq_eq_false_iff_ne.mpr h3]
  simp [allPermissionsOf, ROLE_PERMISSIONS_get, hl, h, JsValue.orEmptyArray, JsValue.truthy,
    JsValue.spread]

/-- Away from the inherited names the authorization step calls `next` when the
required permission is among the defaults of the role or the grants of the
user, and answers 403 otherwise. -/
theorem authorize_of_not_inherited (requiredPermission : String) (user : UserDoc)
    (h : user.role ∉ objectPrototypeKeys) :
    authorize requiredPermission user =
      .allPermissions
          (jsSet ((ROLE_PERMISSIONS.lookup user.role).getD [] ++ user.permissions.getD [])) ::
        (if requiredPermission ∈ (ROLE_PERMISSIONS.lookup user.role).getD [] ∨
            requiredPermission ∈ user.permissions.getD []
         then [.next]
         else setForbidden "Access denied. Insufficient permissions.") := by
  simp [authorize, allPermissionsOf_of_not_inherited user h, mem_jsSet]

/-- When verification succeeds and the store has no record for the id of the
claims, the guard runs into the `catch` block with a `ReferenceError`. -/
theorem checkPermission_of_missing_principal (requiredPermission : String) (w : World)
    (cache cache1 : TokenCache) (req : Request) (token : String) (decoded : Claims)
    (htoken : tokenOf req = some token) (hne : token ≠ "")
    (hv : verifyJwtToken w.decode w.now cache token = (.ok decoded, cache1))
    (hf : w.findById decoded.id = .ok none) :
    checkPermission requiredPermission w cache req =
      ([.verifyJwtToken token, .findById decoded.id,
        .error ("permission.middleware.js >>> checkPermission() >>> Unexpected Error: "
          ++ "error is not defined"),
        .status 500, .json "error" "Server error during permission check."], cache1) := by
  rw [checkPermission_with_token requiredPermission w cache req token htoken hne, hv]
  simp [hf, catchBlock, setServerError, responseStatus, responseData_ERROR]

/-- The events of a run after a successful verification: they are fixed by the
required permission, the store and the id in the claims. -/
theorem checkPermission_trace_of_verified (requiredPermission : String) (w : World)
    (cache : TokenCache) (req : Request) (token : String) (decoded : Claims)
    (htoken : tokenOf req = some token) (hne : token ≠ "")
    (hv : (verifyJwtToken w.decode w.now cache token).1 = .ok decoded) :
    (checkPermission requiredPermission w cache req).1 =
      .verifyJwtToken token ::
        (match w.findById decoded.id with
          | .error e => .findById decoded.id :: catchBlock e
          | .ok none =>
            .findById decoded.id :: catchBlock ⟨"ReferenceError", "error is not defined"⟩
          | .ok (some stored) =>
            .findById decoded.id :: .setUser (selectMinusPassword stored) ::
              authorize requiredPermission (selectMinusPassword stored)) := by
  rw [checkPermission_with_token requiredPermission w cache req token htoken hne]
  rcases hr : verifyJwtToken w.decode w.now cache token with ⟨r, cache1⟩
  rw [hr] at hv
  simp only at hv
  subst hv
  simp only
  cases hf : w.findById decoded.id with
  | error e => rfl
  | ok found =>
    cases found with
    | none => rfl
    | some stored => rfl

/-- The events of a run in which verification throws. -/
theorem checkPermission_trace_of_verify_error (requiredPermission : String) (w : World)
    (cache : TokenCache) (req : Request) (token : String) (e : JsError)
    (htoken : tokenOf req = some token) (hne : token ≠ "")
    (hv : (verifyJwtToken w.decode w.now cache token).1 = .error e) :
    (checkPermission requiredPermission w cache req).1 =
      .verifyJwtToken token :: catchBlock e := by
  rw [checkPermission_with_token requiredPermission w cache req token htoken hne]
  rcases hr : verifyJwtToken w.decode w.now cache token with ⟨r, cache1⟩
  rw [hr] at hv
  simp only at hv
  subst hv
  rfl

/-- The events of a run on a request without a usable token. -/
theorem checkPermission_trace_of_no_token (requiredPermission : String) (w : World)
    (cache : TokenCache) (req : Request) (h : truthyString (tokenOf req) = false) :
    (checkPermission requiredPermission w cache req).1 =
      setNotAuthorized "Access denied. No token provided." := by
  simp [checkPermission, h]

/-- The events of a run on a found principal. -/
theorem checkPermission_trace_of_principal (requiredPermission : String) (w : World)
    (cache : TokenCache) (req : Request) (token : String) (decoded : Claims)
    (stored : UserDoc)
    (htoken : tokenOf req = some token) (hne : token ≠ "")
    (hv : (verifyJwtToken w.decode w.now cache token).1 = .ok decoded)
    (hf : w.findById decoded.id = .ok (some stored)) :
    (checkPermission requiredPermission w cache req).1 =
      .verifyJwtToken token :: .findById decoded.id ::
        .setUser (selectMinusPassword stored) ::
        authorize requiredPermission (selectMinusPassword stored) := by
  rw [checkPermission_trace_of_verified requiredPermission w cache req token decoded
    htoken hne hv, hf]

/-- The one error the permission computation can throw. -/
theorem allPermissionsOf_error (user : UserDoc) (e : JsError)
    (h : allPermissionsOf user = .error e) :
    e = ⟨"TypeError", "rolePermissions is not iterable"⟩ := by
  by_cases hin : user.role ∈ objectPrototypeKeys
  · rw [allPermissionsOf_of_inherited user hin] at h
    cases h
    rfl
  · rw [allPermissionsOf_of_not_inherited user hin] at h
    cases h

theorem next_not_mem_catchBlock (e : JsError) : Event.next ∉ catchBlock e := by
  unfold catchBlock
  split <;> simp [setNotAuthorized, setServerError]

/-- The read of the table for the three roles it lists. -/
theorem ROLE_PERMISSIONS_lookup_listed :
    ROLE_PERMISSIONS.lookup "admin" =
        some ["user_create", "user_read", "user_update", "user_delete",
          "company_read", "company_update", "report_view", "report_export"] ∧
      ROLE_PERMISSIONS.lookup "employee" = some ["user_read", "company_read"] ∧
      ROLE_PERMISSIONS.lookup "user" = some ["user_read"] := by
  refine ⟨rfl, rfl, rfl⟩

/-- The authorization step hands no token to the verifier. -/
theorem verifications_authorize (requiredPermission : String) (user : UserDoc) :
    verifications (authorize requiredPermission user) = [] := by
  unfold authorize
  cases allPermissionsOf user with
  | error e => exact (catchBlock_shape e).2.2.2.2
  | ok members =>
    by_cases hmem : requiredPermission ∈ members <;>
      simp [hmem, verifications, setForbidden]

/-- A run on a request with a usable token hands exactly that token to the
verifier, once. -/
theorem checkPermission_verifications (requiredPermission : String) (w : World)
    (cache : TokenCache) (req : Request) (token : String)
    (htoken : tokenOf req = some token) (hne : token ≠ "") :
    verifications (checkPermission requiredPermission w cache req).1 = [token] := by
  have hcons : ∀ (rest : List Event), verifications rest = [] →
      verifications (.verifyJwtToken token :: rest) = [token] := by
    intro rest hrest
    unfold verifications at hrest ⊢
    simp [List.filterMap_cons, hrest]
  have hskip : ∀ (id : String) (rest : List Event), verifications rest = [] →
      verifications (.findById id :: rest) = [] := by
    intro id rest hrest
    unfold verifications at hrest ⊢
    simp [List.filterMap_cons, hrest]
  have hskip2 : ∀ (u : UserDoc) (rest : List Event), verifications rest = [] →
      verifications (.setUser u :: rest) = [] := by
    intro u rest hrest
    unfold verifications at hrest ⊢
    simp [List.filterMap_cons, hrest]
  cases hv : (verifyJwtToken w.decode w.now cache token).1 with
  | error e =>
    rw [checkPermission_trace_of_verify_error requiredPermission w cache req token e
      htoken hne hv]
    exact hcons _ (catchBlock_shape e).2.2.2.2
  | ok decoded =>
    rw [checkPermission_trace_of_verified requiredPermission w cache req token decoded
      htoken hne hv]
    apply hcons
    cases hf : w.findById decoded.id with
    | error e => exact hskip _ _ (catchBlock_shape e).2.2.2.2
    | ok found =>
      cases found with
      | none => exact hskip _ _ (catchBlock_shape _).2.2.2.2
      | some stored =>
        exact hskip _ _ (hskip2 _ _ (verifications_authorize _ _))

/-- What the `catch` block sends: the message of the error for the two names
of the token library, the fixed message otherwise. -/
theorem sentMessages_catchBlock (e : JsError) :
    sentMessages (catchBlock e) =
      if e.name = "JsonWebTokenError" ∨ e.name = "TokenExpiredError" then [e.message]
      else ["Server error during permission check."] := by
  unfold catchBlock
  split <;> simp [sentMessages, setNotAuthorized, setServerError]

/-- What the `catch` block does with an error of any other name. -/
theorem catchBlock_unexpected (e : JsError)
    (h1 : e.name ≠ "JsonWebTokenError") (h2 : e.name ≠ "TokenExpiredError") :
    statusCodes (catchBlock e) = [500] ∧
      sentMessages (catchBlock e) = ["Server error during permission check."] ∧
      nextCalls (catchBlock e) = 0 := by
  rw [catchBlock_other e h1 h2]
  simp [statusCodes, sentMessages, nextCalls, setServerError, responseStatus]

/-- Removing the first `Bearer ` leaves nothing only for the empty string and
for the pattern itself. -/
theorem replaceFirstChars_eq_nil (pat s : List Char) (hpat : pat ≠ []) :
    replaceFirstChars pat [] s = [] ↔ s = [] ∨ s = pat := by
  cases s with
  | nil => simp [replaceFirstChars, hpat]
  | cons c cs =>
    unfold replaceFirstChars
    by_cases hp : pat.isPrefixOf (c :: cs) = true
    · simp only [hp, if_true, List.nil_append, List.drop_eq_nil_iff, reduceCtorEq, false_or]
      have hpre : pat <+: c :: cs := List.isPrefixOf_iff_prefix.mp hp
      constructor
      · intro hlen
        exact (List.IsPrefix.eq_of_length_le hpre hlen).symm
      · intro heq
        rw [heq]
    · simp only [hp, reduceCtorEq, false_or]
      constructor
      · intro h
        simp at h
      · intro heq
        rw [heq] at hp
        simp at hp

/-- The header yields no token exactly when it is empty or the bare scheme. -/
theorem jsReplace_bearer_eq_empty (h : String) :
    jsReplace h "Bearer " "" = "" ↔ h = "" ∨ h = "Bearer " := by
  have hpat : ("Bearer ".toList) ≠ [] := by decide
  have hmk : jsReplace h "Bearer " "" = "" ↔
      replaceFirstChars "Bearer ".toList [] h.toList = [] := by
    unfold jsReplace
    constructor
    · intro heq
      have := congrArg String.toList heq
      simpa using this
    · intro heq
      have hempty : ("".toList) = [] := rfl
      rw [hempty, heq]
  rw [hmk, replaceFirstChars_eq_nil _ _ hpat]
  constructor
  · rintro (h1 | h1)
    · left
      exact String.ext h1
    · right
      exact String.ext h1
  · rintro (h1 | h1)
    · left
      rw [h1]
      rfl
    · right
      rw [h1]

/-- The three outcomes of the authorization step: an error in the `catch`
block, `next`, or the 403 response. -/
theorem authorize_cases (requiredPermission : String) (user : UserDoc) :
    (∃ e, allPermissionsOf user = .error e ∧
        authorize requiredPermission user = catchBlock e) ∨
      (∃ members, allPermissionsOf user = .ok members ∧ requiredPermission ∈ members ∧
        authorize requiredPermission user = [.allPermissions members, .next]) ∨
      (∃ members, allPermissionsOf user = .ok members ∧ requiredPermission ∉ members ∧
        authorize requiredPermission user =
          [.allPermissions members, .status 403,
           .json "error" "Access denied. Insufficient permissions."]) := by
  unfold authorize
  cases hp : allPermissionsOf user with
  | error e => exact Or.inl ⟨e, rfl, rfl⟩
  | ok members =>
    by_cases hmem : requiredPermission ∈ members
    · exact Or.inr (Or.inl ⟨members, rfl, hmem, by simp [hmem]⟩)
    · exact Or.inr (Or.inr ⟨members, rfl, hmem,
        by simp [hmem, setForbidden, responseStatus, responseData_ERROR]⟩)

/-- The `catch` block does not touch `req.user`. -/
theorem setUser_not_mem_catchBlock (e : JsError) (u : UserDoc) :
    Event.setUser u ∉ catchBlock e := by
  unfold catchBlock
  split <;> simp [setNotAuthorized, setServerError]

/-- The authorization step does not touch `req.user`. -/
theorem setUser_not_mem_authorize (requiredPermission : String) (user u : UserDoc) :
    Event.setUser u ∉ authorize requiredPermission user := by
  rcases authorize_cases requiredPermission user with
    ⟨e, _, h⟩ | ⟨members, _, _, h⟩ | ⟨members, _, _, h⟩
  · rw [h]
    exact setUser_not_mem_catchBlock e u
  · rw [h]
    simp
  · rw [h]
    simp

theorem oneOutcome_catchBlock (e : JsError) : OneOutcome (catchBlock e) := by
  right
  obtain ⟨hs, _, hn, _, _⟩ := catchBlock_shape e
  refine ⟨hn, ?_, ?_⟩
  · rcases hs with hs | hs
    · exact Or.inl hs
    · exact Or.inr (Or.inr hs)
  · rw [sentMessages_catchBlock]
    split
    · exact ⟨_, rfl⟩
    · exact ⟨_, rfl⟩

theorem oneOutcome_authorize (requiredPermission : String) (user : UserDoc) :
    OneOutcome (authorize requiredPermission user) := by
  rcases authorize_cases requiredPermission user with
    ⟨e, _, h⟩ | ⟨members, _, _, h⟩ | ⟨members, _, _, h⟩
  · rw [h]
    exact oneOutcome_catchBlock e
  · rw [h]
    left
    simp [nextCalls, statusCodes, sentMessages]
  · rw [h]
    right
    simp [nextCalls, statusCodes, sentMessages]

/-- The calls of the verifier and of the store and the assignment of `req.user`
are neither a response nor a call of `next`. -/
theorem oneOutcome_cons (ev : Event) (trace : List Event)
    (hev : (∃ t, ev = .verifyJwtToken t) ∨ (∃ id, ev = .findById id) ∨
      (∃ u, ev = .setUser u))
    (h : OneOutcome trace) : OneOutcome (ev :: trace) := by
  have hn : nextCalls (ev :: trace) = nextCalls trace := by
    rcases hev with ⟨t, rfl⟩ | ⟨id, rfl⟩ | ⟨u, rfl⟩ <;> simp [nextCalls]
  have hs : statusCodes (ev :: trace) = statusCodes trace := by
    rcases hev with ⟨t, rfl⟩ | ⟨id, rfl⟩ | ⟨u, rfl⟩ <;> simp [statusCodes]
  have hm : sentMessages (ev :: trace) = sentMessages trace := by
    rcases hev with ⟨t, rfl⟩ | ⟨id, rfl⟩ | ⟨u, rfl⟩ <;> simp [sentMessages]
  unfold OneOutcome
  rw [hn, hs, hm]
  exact h

/-- A string that does not contain the pattern is left as it is. -/
theorem replaceFirstChars_of_absent (pat rep s : List Char) (h : ¬ pat <:+: s) :
    replaceFirstChars pat rep s = s := by
  induction s with
  | nil =>
    have hpat : pat ≠ [] := by
      rintro rfl
      exact h List.nil_infix
    simp [replaceFirstChars, hpat]
  | cons c cs ih =>
    unfold replaceFirstChars
    have hnp : ¬ pat.isPrefixOf (c :: cs) = true := by
      intro hp
      exact h (List.isPrefixOf_iff_prefix.mp hp).isInfix
    have hcs : ¬ pat <:+: cs := by
      intro hin
      exact h (hin.trans (List.suffix_cons c cs).isInfix)
    simp only [hnp, if_false]
    rw [ih hcs]
    simp

/-- A string that starts with the pattern loses it. -/
theorem replaceFirstChars_append (pat t : List Char) (hpat : pat ≠ []) :
    replaceFirstChars pat [] (pat ++ t) = t := by
  cases pat with
  | nil => exact absurd rfl hpat
  | cons p ps =>
    have hp : (p :: ps).isPrefixOf (p :: (ps ++ t)) = true :=
      List.isPrefixOf_iff_prefix.mpr (List.prefix_append (p :: ps) t)
    show replaceFirstChars (p :: ps) [] (p :: (ps ++ t)) = t
    unfold replaceFirstChars
    simp only [hp, if_true, List.nil_append]
    have : p :: (ps ++ t) = (p :: ps) ++ t := rfl
    rw [this, List.drop_left]

/-- The header without the substring `Bearer ` is taken as it is. -/
theorem jsReplace_bearer_of_absent (h : String)
    (hno : ¬ "Bearer ".toList <:+: h.toList) : jsReplace h "Bearer " "" = h := by
  unfold jsReplace
  rw [replaceFirstChars_of_absent _ _ _ hno]
  rfl

/-- The header `Bearer ` followed by `t` yields `t`. -/
theorem jsReplace_bearer_append (t : String) :
    jsReplace ("Bearer " ++ t) "Bearer " "" = t := by
  unfold jsReplace
  have happ : ("Bearer " ++ t).toList = "Bearer ".toList ++ t.toList := by
    simp [String.toList]
  have hempty : ("".toList) = [] := rfl
  rw [happ, hempty, replaceFirstChars_append _ _ (by decide)]
  rfl

/-- An integer is rounded to itself. -/
theorem roundHalfEven_intCast (z : Int) : roundHalfEven (z : ℚ) = z := by
  simp [roundHalfEven]

/-- Rounding moves a number by at most one half. -/
theorem abs_roundHalfEven_sub (y : ℚ) : |(roundHalfEven y : ℚ) - y| ≤ 1 / 2 := by
  have h1 : ((⌊y⌋ : Int) : ℚ) ≤ y := Int.floor_le y
  have h2 : y < ((⌊y⌋ : Int) : ℚ) + 1 := Int.lt_floor_add_one y
  unfold roundHalfEven
  simp only
  split_ifs with ha hb hc
  · rw [abs_le]; constructor <;> linarith
  · rw [abs_le]; push_cast; constructor <;> linarith
  · rw [abs_le]; constructor <;> linarith
  · rw [abs_le]; push_cast; constructor <;> linarith

/-- A number that is a whole multiple of its own unit in the last place is a
double. -/
theorem toDouble_of_scaled (x : ℚ) (z : Int)
    (h : x / 2 ^ (max (Int.log 2 |x| - 52) (-1074)) = (z : ℚ)) : toDouble x = x := by
  unfold toDouble
  split_ifs with h0
  · exact h0.symm
  · simp only
    rw [h, roundHalfEven_intCast, ← h]
    have hpos : (2 : ℚ) ^ (max (Int.log 2 |x| - 52) (-1074)) ≠ 0 := by positivity
    field_simp

/-- Every integer from 0 up to 2^53 - 1 is a double. -/
theorem toDouble_intCast (n : Int) (h0 : 0 ≤ n) (h : n < 2 ^ 53) : toDouble (n : ℚ) = n := by
  by_cases hn : n = 0
  · subst hn
    simp [toDouble]
  have hpos : (0 : ℚ) < (n : ℚ) := by
    have : 0 < n := lt_of_le_of_ne h0 (Ne.symm hn)
    exact_mod_cast this
  have habs : |(n : ℚ)| = n := abs_of_pos hpos
  have hlog : Int.log 2 (n : ℚ) < 53 := by
    rw [← Int.lt_zpow_iff_log_lt (by norm_num) hpos]
    norm_num at h ⊢
    exact_mod_cast h
  have he : max (Int.log 2 |(n : ℚ)| - 52) (-1074) ≤ 0 := by
    rw [habs]
    apply max_le <;> omega
  obtain ⟨k, hk⟩ : ∃ k : ℕ, max (Int.log 2 |(n : ℚ)| - 52) (-1074) = -(k : Int) := by
    refine ⟨(-(max (Int.log 2 |(n : ℚ)| - 52) (-1074))).toNat, ?_⟩
    rw [Int.toNat_of_nonneg (by omega)]
    ring
  apply toDouble_of_scaled (n : ℚ) (n * 2 ^ k)
  rw [hk, zpow_neg, zpow_natCast]
  push_cast
  field_simp

/-- The relative error of rounding a positive normal number is at most 2^-53. -/
theorem toDouble_error (x : ℚ) (hx : 0 < x) (hnormal : (2 : ℚ) ^ (-1022 : Int) ≤ x) :
    |toDouble x - x| ≤ x / 2 ^ 53 := by
  have hlog : -1022 ≤ Int.log 2 x := by
    rw [← Int.zpow_le_iff_le_log (by norm_num) hx]
    simpa using hnormal
  have habs : |x| = x := abs_of_pos hx
  have he : max (Int.log 2 |x| - 52) (-1074) = Int.log 2 x - 52 := by
    rw [habs]
    apply max_eq_left
    omega
  have hle : (2 : ℚ) ^ (Int.log 2 x) ≤ x := by
    have := Int.zpow_log_le_self (R := ℚ) (b := 2) (r := x) (by norm_num) hx
    simpa using this
  set e := Int.log 2 x - 52 with hedef
  have hepos : (0 : ℚ) < 2 ^ e := by positivity
  have hsplit : (2 : ℚ) ^ (Int.log 2 x) = 2 ^ e * 2 ^ 52 := by
    have : Int.log 2 x = e + 52 := by omega
    rw [this, zpow_add₀ (by norm_num)]
    norm_cast
  unfold toDouble
  rw [if_neg (ne_of_gt hx)]
  simp only
  rw [he]
  have hround := abs_roundHalfEven_sub (x / 2 ^ e)
  have hrw : (roundHalfEven (x / 2 ^ e) : ℚ) * 2 ^ e - x =
      ((roundHalfEven (x / 2 ^ e) : ℚ) - x / 2 ^ e) * 2 ^ e := by
    field_simp
  rw [hrw, abs_mul, abs_of_pos hepos]
  have h1 : |(roundHalfEven (x / 2 ^ e) : ℚ) - x / 2 ^ e| * 2 ^ e ≤ 1 / 2 * 2 ^ e :=
    mul_le_mul_of_nonneg_right hround hepos.le
  have h2 : (1 : ℚ) / 2 * 2 ^ e ≤ x / 2 ^ 53 := by
    rw [le_div_iff₀ (by positivity)]
    rw [hsplit] at hle
    have : (2 : ℚ) ^ 53 = 2 * 2 ^ 52 := by norm_num
    rw [this]
    nlinarith
  linarith

/-- Below 2^53 the ceiling of the rounded quotient of a count by a limit is the
ceiling of the exact quotient. -/
theorem ceil_toDouble_div (totalCount limit : Int)
    (hcount : 0 ≤ totalCount) (hcountB : totalCount < 2 ^ 53)
    (hlimit : 1 ≤ limit) (hlimitB : limit < 2 ^ 53) :
    ⌈toDouble ((totalCount : ℚ) / (limit : ℚ))⌉ = ⌈(totalCount : ℚ) / (limit : ℚ)⌉ := by
  have hL : (0 : ℚ) < (limit : ℚ) := by exact_mod_cast (by omega : (0 : Int) < limit)
  have hL1 : (1 : ℚ) ≤ (limit : ℚ) := by exact_mod_cast hlimit
  have hT0 : (0 : ℚ) ≤ (totalCount : ℚ) := by exact_mod_cast hcount
  set q : ℚ := (totalCount : ℚ) / (limit : ℚ) with hq
  have hq0 : 0 ≤ q := div_nonneg hT0 hL.le
  have hqT : q ≤ (totalCount : ℚ) := div_le_self hT0 hL1
  by_cases hint : q = ((⌈q⌉ : Int) : ℚ)
  · have hk0 : 0 ≤ ⌈q⌉ := Int.ceil_nonneg hq0
    have hkB : ⌈q⌉ < 2 ^ 53 := by
      have h1 : ((⌈q⌉ : Int) : ℚ) ≤ (totalCount : ℚ) := by rw [← hint]; exact hqT
      have h2 : ⌈q⌉ ≤ totalCount := by exact_mod_cast h1
      omega
    rw [hint, toDouble_intCast _ hk0 hkB, Int.ceil_intCast]
  · have hlt : q < ((⌈q⌉ : Int) : ℚ) := lt_of_le_of_ne (Int.le_ceil q) hint
    have hgt : ((⌈q⌉ : Int) : ℚ) - 1 < q := by
      have := Int.ceil_lt_add_one q
      linarith
    have hTq : (totalCount : ℚ) = q * limit := by
      rw [hq]
      field_simp
    have hup : q + 1 / (limit : ℚ) ≤ ((⌈q⌉ : Int) : ℚ) := by
      have h1 : (totalCount : ℚ) < ((⌈q⌉ : Int) : ℚ) * limit := by
        rw [hTq]
        exact mul_lt_mul_of_pos_right hlt hL
      have h2 : totalCount < ⌈q⌉ * limit := by exact_mod_cast h1
      have h3 : totalCount + 1 ≤ ⌈q⌉ * limit := by omega
      have h4 : (totalCount : ℚ) + 1 ≤ ((⌈q⌉ : Int) : ℚ) * limit := by exact_mod_cast h3
      have h5 : q + 1 / (limit : ℚ) = ((totalCount : ℚ) + 1) / limit := by
        rw [hq]
        field_simp
      rw [h5, div_le_iff₀ hL]
      exact h4
    have hdown : ((⌈q⌉ : Int) : ℚ) - 1 ≤ q - 1 / (limit : ℚ) := by
      have h1 : (((⌈q⌉ : Int) : ℚ) - 1) * limit < (totalCount : ℚ) := by
        rw [hTq]
        exact mul_lt_mul_of_pos_right hgt hL
      have h2 : (⌈q⌉ - 1) * limit < totalCount := by exact_mod_cast h1
      have h3 : (⌈q⌉ - 1) * limit ≤ totalCount - 1 := by omega
      have h4 : (((⌈q⌉ : Int) : ℚ) - 1) * limit ≤ (totalCount : ℚ) - 1 := by exact_mod_cast h3
      have h5 : q - 1 / (limit : ℚ) = ((totalCount : ℚ) - 1) / limit := by
        rw [hq]
        field_simp
      rw [h5, le_div_iff₀ hL]
      exact h4
    have hqpos : 0 < q := by
      rcases eq_or_lt_of_le hq0 with h0 | h0
      · exfalso
        apply hint
        rw [← h0]
        simp
      · exact h0
    have hTpos : (1 : ℚ) ≤ (totalCount : ℚ) := by
      have h1 : (0 : ℚ) < (totalCount : ℚ) := by
        rw [hTq]
        exact mul_pos hqpos hL
      have h2 : (0 : Int) < totalCount := by exact_mod_cast h1
      exact_mod_cast (by omega : (1 : Int) ≤ totalCount)
    have hLB : (limit : ℚ) < 2 ^ 53 := by
      have : (limit : ℚ) < ((2 ^ 53 : Int) : ℚ) := by exact_mod_cast hlimitB
      simpa using this
    have hTB : (totalCount : ℚ) < 2 ^ 53 := by
      have : (totalCount : ℚ) < ((2 ^ 53 : Int) : ℚ) := by exact_mod_cast hcountB
      simpa using this
    have hqlow : 1 / (limit : ℚ) ≤ q := by
      rw [hq]
      exact div_le_div_of_nonneg_right hTpos hL.le
    have hnormal : (2 : ℚ) ^ (-1022 : Int) ≤ q := by
      have h1 : (2 : ℚ) ^ (-1022 : Int) ≤ 2 ^ (-53 : Int) :=
        zpow_le_zpow_right₀ (by norm_num) (by norm_num)
      have h2 : (2 : ℚ) ^ (-53 : Int) ≤ 1 / (limit : ℚ) := by
        rw [zpow_neg, ← one_div]
        apply one_div_le_one_div_of_le hL
        have : (2 : ℚ) ^ (53 : Int) = 2 ^ 53 := by norm_cast
        rw [this]
        exact hLB.le
      exact le_trans h1 (le_trans h2 hqlow)
    have herr := toDouble_error q hqpos hnormal
    have hsmall : q / 2 ^ 53 < 1 / (limit : ℚ) := by
      rw [hq, div_div, div_lt_div_iff₀ (by positivity) hL]
      nlinarith
    rw [abs_le] at herr
    rw [Int.ceil_eq_iff]
    constructor
    · linarith [herr.1]
    · linarith [herr.2]

/-- The odd integer 2^53 + 1 is not a double: it is rounded to 2^53. -/
theorem toDouble_9007199254740993 :
    toDouble ((9007199254740994 : Int) - 1 : ℚ) = 9007199254740992 := by
  have hx : (((9007199254740994 : Int) : ℚ) - 1) = ((9007199254740993 : ℕ) : ℚ) := by
    norm_num
  have hlog : Int.log 2 |((9007199254740993 : ℕ) : ℚ)| = 53 := by
    rw [abs_of_pos (by norm_num), Int.log_natCast]
    have : Nat.log 2 9007199254740993 = 53 := by
      rw [Nat.log_eq_iff (Or.inl (by norm_num))]
      norm_num
    rw [this]
    rfl
  have hfloor : ⌊((9007199254740993 : ℕ) : ℚ) / 2 ^ (1 : Int)⌋ = 4503599627370496 := by
    rw [Int.floor_eq_iff]
    norm_num
  rw [hx]
  unfold toDouble
  rw [if_neg (by norm_num)]
  simp only
  rw [hlog]
  have he : max ((53 : Int) - 52) (-1074) = 1 := by norm_num
  rw [he]
  have hround : roundHalfEven (((9007199254740993 : ℕ) : ℚ) / 2 ^ (1 : Int)) =
      4503599627370496 := by
    unfold roundHalfEven
    simp only
    rw [hfloor]
    norm_num
  rw [hround]
  norm_num

/-- For a limit and a count below 2^53 the page count is the ceiling of the
exact quotient. -/
theorem totalPagesOf_pos (totalCount limit : Int)
    (hcount : 0 ≤ totalCount) (hcountB : totalCount < 2 ^ 53)
    (hlimit : 1 ≤ limit) (hlimitB : limit < 2 ^ 53) :
    totalPagesOf totalCount limit = .finite ⌈(totalCount : ℚ) / (limit : ℚ)⌉ := by
  have hne : limit ≠ 0 := by omega
  simp [totalPagesOf, hne, ceil_toDouble_div totalCount limit hcount hcountB hlimit hlimitB]

/-- The ceiling of the quotient is the least number of pages that hold all the
documents. -/
theorem ceil_div_le_iff (totalCount limit n : Int) (hlimit : 1 ≤ limit) :
    ⌈(totalCount : ℚ) / (limit : ℚ)⌉ ≤ n ↔ totalCount ≤ n * limit := by
  have hpos : (0 : ℚ) < (limit : ℚ) := by exact_mod_cast (by omega : (0 : Int) < limit)
  rw [Int.ceil_le, div_le_iff₀ hpos]
  exact_mod_cast Iff.rfl

/-- A page lies before the last one exactly when documents remain behind it. -/
theorem lt_ceil_div_iff (totalCount limit page : Int) (hlimit : 1 ≤ limit) :
    page < ⌈(totalCount : ℚ) / (limit : ℚ)⌉ ↔ page * limit < totalCount := by
  have hpos : (0 : ℚ) < (limit : ℚ) := by exact_mod_cast (by omega : (0 : Int) < limit)
  rw [Int.lt_ceil, lt_div_iff₀ hpos]
  exact_mod_cast Iff.rfl

/-! ## The guard -/

/-- C3: when a credential is present and its verification throws a
`JsonWebTokenError` or a `TokenExpiredError`, the guard answers with status 401
and the message of the error, never queries the principal store, never
computes a permission set and never calls `next`; the cache is left as
`verifyJwtToken` left it. -/
theorem checkPermission_verification_failure (requiredPermission : String) (w : World)
    (cache : TokenCache) (req : Request) (token : String) (e : JsError)
    (htoken : tokenOf req = some token) (hne : token ≠ "")
    (hfail : (verifyJwtToken w.decode w.now cache token).1 = .error e)
    (hname : e.name = "JsonWebTokenError" ∨ e.name = "TokenExpiredError") :
    statusCodes (checkPermission requiredPermission w cache req).1 = [401] ∧
      sentMessages (checkPermission requiredPermission w cache req).1 = [e.message] ∧
      storeQueries (checkPermission requiredPermission w cache req).1 = [] ∧
      permissionSets (checkPermission requiredPermission w cache req).1 = [] ∧
      nextCalls (checkPermission requiredPermission w cache req).1 = 0 := by
  rcases hv : verifyJwtToken w.decode w.now cache token with ⟨r, cache1⟩
  rw [hv] at hfail
  simp only at hfail
  subst hfail
  have hrun : checkPermission requiredPermission w cache req =
      (.verifyJwtToken token :: catchBlock e, cache1) := by
    simp [checkPermission, htoken, truthyString, hne, hv]
  rw [hrun, catchBlock_auth e hname]
  simp [statusCodes, sentMessages, storeQueries, permissionSets, nextCalls,
    setNotAuthorized, responseStatus]

/-- The run of C3 on a concrete request: the token `tok-admin` presented at
second 1000, when it has expired, with an empty cache. -/
theorem checkPermission_verification_failure_witness :
    statusCodes (checkPermission "user_read" (sampleWorld 1000000) []
        ⟨some "Bearer tok-admin", none⟩).1 = [401] ∧
      sentMessages (checkPermission "user_read" (sampleWorld 1000000) []
        ⟨some "Bearer tok-admin", none⟩).1 = ["jwt expired"] ∧
      storeQueries (checkPermission "user_read" (sampleWorld 1000000) []
        ⟨some "Bearer tok-admin", none⟩).1 = [] ∧
      permissionSets (checkPermission "user_read" (sampleWorld 1000000) []
        ⟨some "Bearer tok-admin", none⟩).1 = [] ∧
      nextCalls (checkPermission "user_read" (sampleWorld 1000000) []
        ⟨some "Bearer tok-admin", none⟩).1 = 0 :=
  checkPermission_verification_failure "user_read" (sampleWorld 1000000) []
    ⟨some "Bearer tok-admin", none⟩ "tok-admin" ⟨"TokenExpiredError", "jwt expired"⟩
    (by decide) (by decide) rfl (by decide)

/-- C4: a request with no Authorization header and no token cookie is answered
with status 401 and the message `Access denied. No token provided.`; the run
consists of that response alone (no call of the verifier, no store query, no
permission set, no `next`) and leaves the cache as it was. -/
theorem checkPermission_no_token (requiredPermission : String) (w : World)
    (cache : TokenCache) :
    checkPermission requiredPermission w cache ⟨none, none⟩ =
      ([.status 401, .json "error" "Access denied. No token provided."], cache) := by
  simp [checkPermission, tokenOf, truthyString, setNotAuthorized, responseStatus,
    responseData_ERROR]

/-- C5: a run that answers 403 has the shape: a credential was extracted, the
call of `verifyJwtToken` on it returned claims, the store query for the id of
the claims returned a record, the record was attached, and only then the
permission set was computed and found not to hold the required permission. -/
theorem checkPermission_forbidden_after_authentication (requiredPermission : String)
    (w : World) (cache : TokenCache) (req : Request)
    (h403 : Event.status 403 ∈ (checkPermission requiredPermission w cache req).1) :
    ∃ token decoded stored members,
      tokenOf req = some token ∧ token ≠ "" ∧
      (verifyJwtToken w.decode w.now cache token).1 = .ok decoded ∧
      w.findById decoded.id = .ok (some stored) ∧
      requiredPermission ∉ members ∧
      (checkPermission requiredPermission w cache req).1 =
        [.verifyJwtToken token, .findById decoded.id,
         .setUser (selectMinusPassword stored), .allPermissions members,
         .status 403, .json "error" "Access denied. Insufficient permissions."] := by
  by_cases htruthy : truthyString (tokenOf req) = true
  · obtain ⟨token, htoken, hne⟩ := (truthyString_eq_true _).mp htruthy
    rw [checkPermission_with_token requiredPermission w cache req token htoken hne] at h403 ⊢
    rcases hv : verifyJwtToken w.decode w.now cache token with ⟨r, cache1⟩
    rw [hv] at h403
    clear htruthy
    cases r with
    | error e =>
      simp only [List.mem_cons, reduceCtorEq, false_or] at h403
      exact absurd h403 (status_forbidden_not_mem_catchBlock e)
    | ok decoded =>
      simp only at h403
      cases hf : w.findById decoded.id with
      | error e =>
        rw [hf] at h403
        simp only [List.mem_cons, reduceCtorEq, false_or] at h403
        exact absurd h403 (status_forbidden_not_mem_catchBlock e)
      | ok found =>
        rw [hf] at h403
        cases found with
        | none =>
          simp only [List.mem_cons, reduceCtorEq, false_or] at h403
          exact absurd h403 (status_forbidden_not_mem_catchBlock _)
        | some stored =>
          simp only [List.mem_cons, reduceCtorEq, false_or] at h403
          unfold authorize at h403
          cases hp : allPermissionsOf (selectMinusPassword stored) with
          | error e =>
            rw [hp] at h403
            exact absurd h403 (status_forbidden_not_mem_catchBlock e)
          | ok members =>
            rw [hp] at h403
            by_cases hmem : requiredPermission ∈ members
            · simp [hmem] at h403
            · refine ⟨token, decoded, stored, members, htoken, hne, by rw [hv], hf, hmem, ?_⟩
              simp [hv, hf, authorize, hp, hmem, setForbidden, responseStatus,
                responseData_ERROR]
  · exfalso
    have hrun : checkPermission requiredPermission w cache req =
        (setNotAuthorized "Access denied. No token provided.", cache) := by
      simp [checkPermission, htruthy]
    rw [hrun] at h403
    simp [setNotAuthorized, responseStatus] at h403

/-- The run of C5 on a concrete request: the user `u2` asks for `user_create`. -/
theorem checkPermission_forbidden_after_authentication_witness :
    ∃ token decoded stored members,
      tokenOf ⟨none, some "tok-user"⟩ = some token ∧ token ≠ "" ∧
      (verifyJwtToken (sampleWorld 950000).decode (sampleWorld 950000).now [] token).1
        = .ok decoded ∧
      (sampleWorld 950000).findById decoded.id = .ok (some stored) ∧
      "user_create" ∉ members ∧
      (checkPermission "user_create" (sampleWorld 950000) [] ⟨none, some "tok-user"⟩).1 =
        [.verifyJwtToken token, .findById decoded.id,
         .setUser (selectMinusPassword stored), .allPermissions members,
         .status 403, .json "error" "Access denied. Insufficient permissions."] :=
  checkPermission_forbidden_after_authentication "user_create" (sampleWorld 950000) []
    ⟨none, some "tok-user"⟩ (by decide)

/-! ## Cached verification -/

/-- C7: on a cache hit `verifyJwtToken` returns the cached claims and leaves the
cache as it is, whatever the library would say about the token (the statement
holds for every `decode`, so neither the signature nor the expiry of the
token has any part in the result). -/
theorem verifyJwtToken_cache_hit (decode : String → Except JsError Claims) (now : Nat)
    (cache : TokenCache) (token : String) (cached : Claims)
    (hhit : cache.get now token = some cached) :
    verifyJwtToken decode now cache token = (.ok cached, cache) :=
  verifyJwtToken_of_hit decode now cache token cached hhit

/-- The run of C7 on a cache that holds claims for a token which the library
rejects as malformed. -/
theorem verifyJwtToken_cache_hit_witness :
    TokenCache.get [⟨"junk", ⟨"u1", "admin", 900, some 1000⟩, 1010000⟩] 1005000 "junk"
        = some ⟨"u1", "admin", 900, some 1000⟩ ∧
      verifyJwtToken sampleDecode 1005000
          [⟨"junk", ⟨"u1", "admin", 900, some 1000⟩, 1010000⟩] "junk" =
        (.ok ⟨"u1", "admin", 900, some 1000⟩,
          [⟨"junk", ⟨"u1", "admin", 900, some 1000⟩, 1010000⟩]) :=
  ⟨by decide,
    verifyJwtToken_cache_hit sampleDecode 1005000
      [⟨"junk", ⟨"u1", "admin", 900, some 1000⟩, 1010000⟩] "junk"
      ⟨"u1", "admin", 900, some 1000⟩ (by decide)⟩

/-- C9, the claim as stated fails: the token `tok-admin` expires at second 1000;
a call at second 999 stores its claims in an entry that lives until
millisecond 1059000; the call at millisecond 1059001 finds the entry expired,
the read deletes it, the library rejects the token, and the call throws: the
table held one entry before the failing call and holds none after it. -/
theorem verifyJwtToken_failure_drops_expired_entry :
    (verifyJwtToken sampleDecode 999000 [] "tok-admin").2 =
        [⟨"tok-admin", ⟨"u1", "admin", 900, some 1000⟩, 1059000⟩] ∧
      verifyJwtToken sampleDecode 1059001
          [⟨"tok-admin", ⟨"u1", "admin", 900, some 1000⟩, 1059000⟩] "tok-admin" =
        (.error ⟨"TokenExpiredError", "jwt expired"⟩, []) ∧
      ([] : TokenCache) ≠ [⟨"tok-admin", ⟨"u1", "admin", 900, some 1000⟩, 1059000⟩] := by
  refine ⟨rfl, rfl, ?_⟩
  decide

/-- C9 as amended: a call of `verifyJwtToken` that throws stores nothing. The
table after the call is the table before it without the entry of that token
(which the read drops when it finds it expired); it is the very same table
when it held no entry of the token; what is read for every other key is as
before; and every later call with the same token is decided by the library
again (its result is the result of `jwt.verify` at that later time). -/
theorem verifyJwtToken_failure_not_cached (decode : String → Except JsError Claims)
    (now : Nat) (cache : TokenCache) (token : String) (e : JsError)
    (hfail : (verifyJwtToken decode now cache token).1 = .error e) :
    (verifyJwtToken decode now cache token).2 =
        cache.filter (fun entry => entry.key != token) ∧
      ((∀ entry ∈ cache, entry.key ≠ token) →
        (verifyJwtToken decode now cache token).2 = cache) ∧
      (∀ t other, other ≠ token →
        TokenCache.get (verifyJwtToken decode now cache token).2 t other =
          cache.get t other) ∧
      ∀ later, now ≤ later →
        (verifyJwtToken decode later (verifyJwtToken decode now cache token).2 token).1 =
          jwtVerify decode later token := by
  cases hg : cache.get now token with
  | some cached =>
    rw [verifyJwtToken_of_hit decode now cache token cached hg] at hfail
    cases hfail
  | none =>
    cases hv : jwtVerify decode now token with
    | ok decoded =>
      rw [verifyJwtToken_of_miss_ok decode now cache token decoded hg hv] at hfail
      cases hfail
    | error e1 =>
      have htable : (verifyJwtToken decode now cache token).2 =
          cache.filter (fun entry => entry.key != token) := by
        rw [verifyJwtToken_of_miss_error decode now cache token e1 hg hv]
        exact TokenCache.afterGet_of_miss cache now token hg
      refine ⟨htable, ?_, ?_, ?_⟩
      · intro hnone
        rw [htable, List.filter_eq_self]
        intro a ha
        simpa using hnone a ha
      · intro t other hne
        rw [htable]
        exact TokenCache.get_filter_other cache t token other hne
      · intro later _
        rw [htable]
        have hmiss := TokenCache.get_filter_self cache later token
        cases hl : jwtVerify decode later token with
        | error e2 => rw [verifyJwtToken_of_miss_error decode later _ token e2 hmiss hl]
        | ok d2 => rw [verifyJwtToken_of_miss_ok decode later _ token d2 hmiss hl]

/-- The run of the amended C9 on the token `tok-admin` at millisecond 1059001,
with the table a call at second 999 left behind. -/
theorem verifyJwtToken_failure_not_cached_witness :
    (verifyJwtToken sampleDecode 1059001
          [⟨"tok-admin", ⟨"u1", "admin", 900, some 1000⟩, 1059000⟩] "tok-admin").2 =
        List.filter (fun entry => entry.key != "tok-admin")
          [⟨"tok-admin", ⟨"u1", "admin", 900, some 1000⟩, 1059000⟩] ∧
      ((∀ entry ∈ ([⟨"tok-admin", ⟨"u1", "admin", 900, some 1000⟩, 1059000⟩] : TokenCache),
          entry.key ≠ "tok-admin") →
        (verifyJwtToken sampleDecode 1059001
          [⟨"tok-admin", ⟨"u1", "admin", 900, some 1000⟩, 1059000⟩] "tok-admin").2 =
          [⟨"tok-admin", ⟨"u1", "admin", 900, some 1000⟩, 1059000⟩]) ∧
      (∀ t other, other ≠ "tok-admin" →
        TokenCache.get (verifyJwtToken sampleDecode 1059001
            [⟨"tok-admin", ⟨"u1", "admin", 900, some 1000⟩, 1059000⟩] "tok-admin").2 t other =
          TokenCache.get [⟨"tok-admin", ⟨"u1", "admin", 900, some 1000⟩, 1059000⟩] t other) ∧
      ∀ later, 1059001 ≤ later →
        (verifyJwtToken sampleDecode later
            (verifyJwtToken sampleDecode 1059001
              [⟨"tok-admin", ⟨"u1", "admin", 900, some 1000⟩, 1059000⟩] "tok-admin").2
            "tok-admin").1 =
          jwtVerify sampleDecode later "tok-admin" :=
  verifyJwtToken_failure_not_cached sampleDecode 1059001
    [⟨"tok-admin", ⟨"u1", "admin", 900, some 1000⟩, 1059000⟩] "tok-admin"
    ⟨"TokenExpiredError", "jwt expired"⟩ rfl

/-- C8: two calls of `verifyJwtToken` with the same credential, the second at
most `stdTTL` seconds after the first, both return the same claims, when the
credential is valid at the first call and either is still valid at the second
call or the first call is the one that stored the cache entry. The cache is a
coherent one, as every cache the code builds is. -/
theorem verifyJwtToken_idempotent (decode : String → Except JsError Claims)
    (cache : TokenCache) (token : String) (c : Claims) (t1 t2 : Nat)
    (hcoh : Coherent decode cache)
    (hvalid1 : jwtVerify decode t1 token = .ok c)
    (hwithin : t2 ≤ t1 + stdTTL * 1000)
    (hvalid2 : jwtVerify decode t2 token = .ok c ∨ cache.get t1 token = none) :
    (verifyJwtToken decode t1 cache token).1 = .ok c ∧
      (verifyJwtToken decode t2 (verifyJwtToken decode t1 cache token).2 token).1 = .ok c := by
  have hdec : decode token = .ok c := jwtVerify_ok_decode decode t1 token c hvalid1
  cases hg1 : cache.get t1 token with
  | some c0 =>
    have hc0 : c0 = c := by
      have := Coherent.get decode cache hcoh t1 token c0 hg1
      rw [hdec] at this
      cases this
      rfl
    subst hc0
    have hr1 : verifyJwtToken decode t1 cache token = (.ok c0, cache) :=
      verifyJwtToken_of_hit decode t1 cache token c0 hg1
    rw [hr1]
    refine ⟨rfl, ?_⟩
    cases hg2 : cache.get t2 token with
    | some c2 =>
      have hc2 : c2 = c0 := by
        have := Coherent.get decode cache hcoh t2 token c2 hg2
        rw [hdec] at this
        cases this
        rfl
      simp [verifyJwtToken, hg2, hc2]
    | none =>
      rcases hvalid2 with hv2 | hmiss
      · simp [verifyJwtToken, hg2, hv2]
      · rw [hg1] at hmiss
        cases hmiss
  | none =>
    have hr1 : verifyJwtToken decode t1 cache token =
        (.ok c, (cache.afterGet t1 token).set t1 token c) :=
      verifyJwtToken_of_miss_ok decode t1 cache token c hg1 hvalid1
    rw [hr1]
    refine ⟨rfl, ?_⟩
    have hhit := TokenCache.get_set (cache.afterGet t1 token) t1 t2 token c hwithin
    rw [verifyJwtToken_of_hit decode t2 _ token c hhit]

/-- The run of C8 on the token `tok-admin`, first verified at second 999 and
presented again at second 1050. -/
theorem verifyJwtToken_idempotent_witness :
    (verifyJwtToken sampleDecode 999000 [] "tok-admin").1
        = .ok ⟨"u1", "admin", 900, some 1000⟩ ∧
      (verifyJwtToken sampleDecode 1050000
          (verifyJwtToken sampleDecode 999000 [] "tok-admin").2 "tok-admin").1
        = .ok ⟨"u1", "admin", 900, some 1000⟩ :=
  verifyJwtToken_idempotent sampleDecode [] "tok-admin" ⟨"u1", "admin", 900, some 1000⟩
    999000 1050000 (coherent_nil sampleDecode) rfl (by decide) (Or.inr rfl)

/-- C6, the claim as stated fails: the token `tok-admin` expires at second
1000; a call at second 999 verifies it and stores its claims; the call at
second 1000, when the expiry has passed, returns the stored claims and throws
nothing. -/
theorem verifyJwtToken_expired_served_from_cache :
    ¬ ∀ (decode : String → Except JsError Claims) (now : Nat) (cache : TokenCache)
        (token : String) (payload : Claims) (exp : Nat),
        decode token = .ok payload → payload.exp = some exp → exp ≤ now / 1000 →
        ∃ message, (verifyJwtToken decode now cache token).1
          = .error ⟨"TokenExpiredError", message⟩ := by
  intro h
  obtain ⟨message, hm⟩ := h sampleDecode 1000000
    (verifyJwtToken sampleDecode 999000 [] "tok-admin").2 "tok-admin"
    ⟨"u1", "admin", 900, some 1000⟩ 1000 rfl rfl (by decide)
  have hrun : (verifyJwtToken sampleDecode 1000000
      (verifyJwtToken sampleDecode 999000 [] "tok-admin").2 "tok-admin").1
      = .ok ⟨"u1", "admin", 900, some 1000⟩ := rfl
  rw [hrun] at hm
  cases hm

/-- C6 as amended: for a credential whose expiry has passed, `verifyJwtToken`
throws the `TokenExpiredError` when the cache holds no live entry for it, and
returns the cached claims when it holds one; nothing is stored either way (on
a hit the table is unchanged, on a miss it is the table the read leaves). -/
theorem verifyJwtToken_expired (decode : String → Except JsError Claims) (now : Nat)
    (cache : TokenCache) (token : String) (payload : Claims) (exp : Nat)
    (hd : decode token = .ok payload) (hexp : payload.exp = some exp)
    (hpassed : exp ≤ now / 1000) :
    (cache.get now token = none →
        verifyJwtToken decode now cache token =
          (.error ⟨"TokenExpiredError", "jwt expired"⟩, cache.afterGet now token)) ∧
      (∀ cached, cache.get now token = some cached →
        verifyJwtToken decode now cache token = (.ok cached, cache)) :=
  ⟨fun hmiss => verifyJwtToken_of_miss_error decode now cache token _ hmiss
      (jwtVerify_expired decode now token payload exp hd hexp hpassed),
    fun cached hhit => verifyJwtToken_of_hit decode now cache token cached hhit⟩

/-- The run of the amended C6 on the token `tok-admin` at second 1000, with the
cache a call at second 999 left behind. -/
theorem verifyJwtToken_expired_witness :
    (sampleDecode "tok-admin" = .ok ⟨"u1", "admin", 900, some 1000⟩ ∧
      1000 ≤ 1000000 / 1000) ∧
    ((TokenCache.get (verifyJwtToken sampleDecode 999000 [] "tok-admin").2 1000000 "tok-admin"
          = none →
        verifyJwtToken sampleDecode 1000000
            (verifyJwtToken sampleDecode 999000 [] "tok-admin").2 "tok-admin" =
          (.error ⟨"TokenExpiredError", "jwt expired"⟩,
            TokenCache.afterGet (verifyJwtToken sampleDecode 999000 [] "tok-admin").2
              1000000 "tok-admin")) ∧
      (∀ cached,
        TokenCache.get (verifyJwtToken sampleDecode 999000 [] "tok-admin").2 1000000
          "tok-admin" = some cached →
        verifyJwtToken sampleDecode 1000000
            (verifyJwtToken sampleDecode 999000 [] "tok-admin").2 "tok-admin" =
          (.ok cached, (verifyJwtToken sampleDecode 999000 [] "tok-admin").2))) :=
  ⟨⟨rfl, by decide⟩,
    verifyJwtToken_expired sampleDecode 1000000
      (verifyJwtToken sampleDecode 999000 [] "tok-admin").2 "tok-admin"
      ⟨"u1", "admin", 900, some 1000⟩ 1000 rfl rfl (by decide)⟩

/-! ## Runs on which the code departs from the specification -/

/-- C2, the run the code makes: the token `tok-ghost` verifies (its claims name
the principal `u9`) and the store holds no record `u9`; the guard answers with
status 500 and the message of the server error, not with 401. It does not
call `next`. -/
theorem checkPermission_missing_principal_run :
    (verifyJwtToken sampleDecode 950000 [] "tok-ghost").1
        = .ok ⟨"u9", "user", 900, some 1000⟩ ∧
      sampleStore "u9" = .ok none ∧
      (checkPermission "user_read" (sampleWorld 950000) []
          ⟨some "Bearer tok-ghost", none⟩).1 =
        [.verifyJwtToken "tok-ghost", .findById "u9",
         .error ("permission.middleware.js >>> checkPermission() >>> Unexpected Error: "
           ++ "error is not defined"),
         .status 500, .json "error" "Server error during permission check."] := by
  refine ⟨rfl, rfl, ?_⟩
  decide

/-- C10, the run the code makes: for the role value `constructor` the read
`ROLE_PERMISSIONS[role]` yields the member inherited from `Object.prototype`,
the fallback to the empty array is not taken, and building the permission set
of a principal of that role throws a `TypeError` where the claim has the set
equal to the grants of the principal. -/
theorem ROLE_PERMISSIONS_constructor_run :
    "constructor" ≠ "user" ∧ "constructor" ≠ "employee" ∧ "constructor" ≠ "admin" ∧
      (ROLE_PERMISSIONS_get "constructor").orEmptyArray = .inherited "constructor" ∧
      allPermissionsOf ⟨"u7", none, "constructor", some ["user_read"]⟩ =
        .error ⟨"TypeError", "rolePermissions is not iterable"⟩ := by
  refine ⟨by decide, by decide, by decide, by decide, rfl⟩

/-- C1, the run the code makes: the store returns the principal `u7`, whose role
is the string `constructor` and whose own grants hold `user_read`; the guard
built for `user_read` neither calls `next` nor answers 403: it answers 500. -/
theorem checkPermission_constructor_role_run :
    sampleStore "u7" = .ok (some ⟨"u7", some "hash7", "constructor", some ["user_read"]⟩) ∧
      (checkPermission "user_read" (sampleWorld 950000) []
          ⟨some "Bearer tok-odd", none⟩).1 =
        [.verifyJwtToken "tok-odd", .findById "u7",
         .setUser ⟨"u7", none, "constructor", some ["user_read"]⟩,
         .error ("permission.middleware.js >>> checkPermission() >>> Unexpected Error: "
           ++ "rolePermissions is not iterable"),
         .status 500, .json "error" "Server error during permission check."] := by
  refine ⟨rfl, ?_⟩
  decide

/-! ## Roles, grants and decisions -/

/-- C13: for a principal whose role is `user`, `employee` or `admin` and whose
grants are empty or absent, the permission set the guard computes is exactly
the list the table holds for the role. -/
theorem allPermissionsOf_listed_role (user : UserDoc)
    (hrole : user.role = "user" ∨ user.role = "employee" ∨ user.role = "admin")
    (hgrants : user.permissions = none ∨ user.permissions = some []) :
    ∃ defaults, ROLE_PERMISSIONS_get user.role = .array defaults ∧
      allPermissionsOf user = .ok defaults := by
  obtain ⟨id, pw, role, perms⟩ := user
  simp only at hrole hgrants
  rcases hrole with rfl | rfl | rfl <;> rcases hgrants with rfl | rfl <;>
    exact ⟨_, rfl, rfl⟩

/-- The run of C13 on an employee without a grants field. -/
theorem allPermissionsOf_listed_role_witness :
    ∃ defaults, ROLE_PERMISSIONS_get "employee" = .array defaults ∧
      allPermissionsOf ⟨"u3", none, "employee", none⟩ = .ok defaults :=
  allPermissionsOf_listed_role ⟨"u3", none, "employee", none⟩
    (Or.inr (Or.inl rfl)) (Or.inl rfl)

/-- C14 (scenario A): when the credential verifies and the store returns a
principal of role `admin`, the guard built for `report_export` calls `next`
once and writes no response, whatever the grants of the principal are. -/
theorem checkPermission_admin_report_export (w : World) (cache : TokenCache)
    (req : Request) (token : String) (decoded : Claims) (stored : UserDoc)
    (htoken : tokenOf req = some token) (hne : token ≠ "")
    (hv : (verifyJwtToken w.decode w.now cache token).1 = .ok decoded)
    (hf : w.findById decoded.id = .ok (some stored))
    (hrole : stored.role = "admin") :
    nextCalls (checkPermission "report_export" w cache req).1 = 1 ∧
      statusCodes (checkPermission "report_export" w cache req).1 = [] ∧
      sentMessages (checkPermission "report_export" w cache req).1 = [] := by
  have hnot : (selectMinusPassword stored).role ∉ objectPrototypeKeys := by
    simp only [selectMinusPassword, hrole]
    decide
  have hlookup : ROLE_PERMISSIONS.lookup (selectMinusPassword stored).role =
      some ["user_create", "user_read", "user_update", "user_delete",
        "company_read", "company_update", "report_view", "report_export"] := by
    simp only [selectMinusPassword, hrole]
    exact ROLE_PERMISSIONS_lookup_listed.1
  rw [checkPermission_trace_of_principal "report_export" w cache req token decoded stored
    htoken hne hv hf, authorize_of_not_inherited "report_export" _ hnot, hlookup]
  simp [nextCalls, statusCodes, sentMessages]

/-- The run of C14 on the admin `u1` of the sample store. -/
theorem checkPermission_admin_report_export_witness :
    nextCalls (checkPermission "report_export" (sampleWorld 950000) []
        ⟨some "Bearer tok-admin", none⟩).1 = 1 ∧
      statusCodes (checkPermission "report_export" (sampleWorld 950000) []
        ⟨some "Bearer tok-admin", none⟩).1 = [] ∧
      sentMessages (checkPermission "report_export" (sampleWorld 950000) []
        ⟨some "Bearer tok-admin", none⟩).1 = [] :=
  checkPermission_admin_report_export (sampleWorld 950000) []
    ⟨some "Bearer tok-admin", none⟩ "tok-admin" ⟨"u1", "admin", 900, some 1000⟩
    ⟨"u1", some "hash1", "admin", some []⟩ (by decide) (by decide) rfl rfl rfl

/-- C15 (scenario B): when the credential verifies and the store returns a
principal of role `user` without grants, the guard built for `user_create`
answers 403 with the message of insufficient permissions and does not call
`next`. -/
theorem checkPermission_user_create_forbidden (w : World) (cache : TokenCache)
    (req : Request) (token : String) (decoded : Claims) (stored : UserDoc)
    (htoken : tokenOf req = some token) (hne : token ≠ "")
    (hv : (verifyJwtToken w.decode w.now cache token).1 = .ok decoded)
    (hf : w.findById decoded.id = .ok (some stored))
    (hrole : stored.role = "user")
    (hgrants : stored.permissions = none ∨ stored.permissions = some []) :
    statusCodes (checkPermission "user_create" w cache req).1 = [403] ∧
      sentMessages (checkPermission "user_create" w cache req).1 =
        ["Access denied. Insufficient permissions."] ∧
      nextCalls (checkPermission "user_create" w cache req).1 = 0 := by
  have hnot : (selectMinusPassword stored).role ∉ objectPrototypeKeys := by
    simp only [selectMinusPassword, hrole]
    decide
  have hlookup : ROLE_PERMISSIONS.lookup (selectMinusPassword stored).role =
      some ["user_read"] := by
    simp only [selectMinusPassword, hrole]
    exact ROLE_PERMISSIONS_lookup_listed.2.2
  have hperms : (selectMinusPassword stored).permissions.getD [] = [] := by
    rcases hgrants with h | h <;> simp [selectMinusPassword, h]
  rw [checkPermission_trace_of_principal "user_create" w cache req token decoded stored
    htoken hne hv hf, authorize_of_not_inherited "user_create" _ hnot, hlookup, hperms]
  simp [nextCalls, statusCodes, sentMessages, setForbidden, responseStatus]

/-- The run of C15 on the user `u2` of the sample store. -/
theorem checkPermission_user_create_forbidden_witness :
    statusCodes (checkPermission "user_create" (sampleWorld 950000) []
        ⟨some "Bearer tok-user", none⟩).1 = [403] ∧
      sentMessages (checkPermission "user_create" (sampleWorld 950000) []
        ⟨some "Bearer tok-user", none⟩).1 =
        ["Access denied. Insufficient permissions."] ∧
      nextCalls (checkPermission "user_create" (sampleWorld 950000) []
        ⟨some "Bearer tok-user", none⟩).1 = 0 :=
  checkPermission_user_create_forbidden (sampleWorld 950000) []
    ⟨some "Bearer tok-user", none⟩ "tok-user" ⟨"u2", "user", 900, some 1000⟩
    ⟨"u2", some "hash2", "user", some []⟩ (by decide) (by decide) rfl rfl rfl
    (Or.inr rfl)

/-- C20: a run that calls `next` has the shape: the verifier returned claims,
the store query for the id of the claims returned a record, that record (as
the query projects it, without the password) was assigned to `req.user`, the
permission set was computed, and then `next` was called. -/
theorem checkPermission_next_after_setUser (requiredPermission : String) (w : World)
    (cache : TokenCache) (req : Request)
    (hnext : Event.next ∈ (checkPermission requiredPermission w cache req).1) :
    ∃ token decoded stored members,
      tokenOf req = some token ∧ token ≠ "" ∧
      (verifyJwtToken w.decode w.now cache token).1 = .ok decoded ∧
      w.findById decoded.id = .ok (some stored) ∧
      requiredPermission ∈ members ∧
      (checkPermission requiredPermission w cache req).1 =
        [.verifyJwtToken token, .findById decoded.id,
         .setUser (selectMinusPassword stored), .allPermissions members, .next] := by
  by_cases htruthy : truthyString (tokenOf req) = true
  · obtain ⟨token, htoken, hne⟩ := (truthyString_eq_true _).mp htruthy
    cases hv : (verifyJwtToken w.decode w.now cache token).1 with
    | error e =>
      rw [checkPermission_trace_of_verify_error requiredPermission w cache req token e
        htoken hne hv] at hnext
      simp only [List.mem_cons, reduceCtorEq, false_or] at hnext
      exact absurd hnext (next_not_mem_catchBlock e)
    | ok decoded =>
      cases hf : w.findById decoded.id with
      | error e =>
        rw [checkPermission_trace_of_verified requiredPermission w cache req token decoded
          htoken hne hv, hf] at hnext
        simp only [List.mem_cons, reduceCtorEq, false_or] at hnext
        exact absurd hnext (next_not_mem_catchBlock e)
      | ok found =>
        cases found with
        | none =>
          rw [checkPermission_trace_of_verified requiredPermission w cache req token decoded
            htoken hne hv, hf] at hnext
          simp only [List.mem_cons, reduceCtorEq, false_or] at hnext
          exact absurd hnext (next_not_mem_catchBlock _)
        | some stored =>
          have htrace := checkPermission_trace_of_principal requiredPermission w cache req
            token decoded stored htoken hne hv hf
          rw [htrace] at hnext
          simp only [List.mem_cons, reduceCtorEq, false_or] at hnext
          unfold authorize at hnext htrace
          cases hp : allPermissionsOf (selectMinusPassword stored) with
          | error e =>
            rw [hp] at hnext
            exact absurd hnext (next_not_mem_catchBlock e)
          | ok members =>
            rw [hp] at hnext htrace
            by_cases hmem : requiredPermission ∈ members
            · refine ⟨token, decoded, stored, members, htoken, hne, hv, hf, hmem, ?_⟩
              rw [htrace]
              simp [hmem]
            · simp [hmem, setForbidden] at hnext
  · exfalso
    have hfalse : truthyString (tokenOf req) = false := by simpa using htruthy
    rw [checkPermission_trace_of_no_token requiredPermission w cache req hfalse] at hnext
    simp [setNotAuthorized] at hnext

/-- The run of C20 on the admin `u1` of the sample store. -/
theorem checkPermission_next_after_setUser_witness :
    ∃ token decoded stored members,
      tokenOf ⟨some "Bearer tok-admin", none⟩ = some token ∧ token ≠ "" ∧
      (verifyJwtToken (sampleWorld 950000).decode (sampleWorld 950000).now [] token).1
        = .ok decoded ∧
      (sampleWorld 950000).findById decoded.id = .ok (some stored) ∧
      "user_delete" ∈ members ∧
      (checkPermission "user_delete" (sampleWorld 950000) []
          ⟨some "Bearer tok-admin", none⟩).1 =
        [.verifyJwtToken token, .findById decoded.id,
         .setUser (selectMinusPassword stored), .allPermissions members, .next] :=
  checkPermission_next_after_setUser "user_delete" (sampleWorld 950000) []
    ⟨some "Bearer tok-admin", none⟩ (by decide)

/-! ## Failures and what is sent -/

/-- C16: when an error of a name other than `JsonWebTokenError` and
`TokenExpiredError` is thrown by the verification, by the store query or by the
computation of the permission set, the guard answers 500 with the message
`Server error during permission check.` and does not call `next`. -/
theorem checkPermission_unexpected_failure (requiredPermission : String) (w : World)
    (cache : TokenCache) (req : Request) (token : String) (e : JsError)
    (htoken : tokenOf req = some token) (hne : token ≠ "")
    (h1 : e.name ≠ "JsonWebTokenError") (h2 : e.name ≠ "TokenExpiredError")
    (hthrown :
      (verifyJwtToken w.decode w.now cache token).1 = .error e ∨
      (∃ decoded, (verifyJwtToken w.decode w.now cache token).1 = .ok decoded ∧
        w.findById decoded.id = .error e) ∨
      (∃ decoded stored, (verifyJwtToken w.decode w.now cache token).1 = .ok decoded ∧
        w.findById decoded.id = .ok (some stored) ∧
        allPermissionsOf (selectMinusPassword stored) = .error e)) :
    statusCodes (checkPermission requiredPermission w cache req).1 = [500] ∧
      sentMessages (checkPermission requiredPermission w cache req).1 =
        ["Server error during permission check."] ∧
      nextCalls (checkPermission requiredPermission w cache req).1 = 0 := by
  obtain ⟨hs, hm, hn⟩ := catchBlock_unexpected e h1 h2
  rcases hthrown with hv | ⟨decoded, hv, hf⟩ | ⟨decoded, stored, hv, hf, hp⟩
  · rw [checkPermission_trace_of_verify_error requiredPermission w cache req token e
      htoken hne hv]
    simp only [statusCodes, sentMessages, nextCalls] at hs hm hn ⊢
    simp [List.filterMap_cons, hs, hm, hn]
  · rw [checkPermission_trace_of_verified requiredPermission w cache req token decoded
      htoken hne hv, hf]
    simp only [statusCodes, sentMessages, nextCalls] at hs hm hn ⊢
    simp [List.filterMap_cons, hs, hm, hn]
  · rw [checkPermission_trace_of_principal requiredPermission w cache req token decoded
      stored htoken hne hv hf]
    unfold authorize
    rw [hp]
    simp only [statusCodes, sentMessages, nextCalls] at hs hm hn ⊢
    simp [List.filterMap_cons, hs, hm, hn]

/-- The run of C16 with a store that cannot be reached. -/
theorem checkPermission_unexpected_failure_witness :
    statusCodes (checkPermission "user_read" (storeDownWorld ⟨"u1", "admin", 900, none⟩ 0)
        [] ⟨some "Bearer tok", none⟩).1 = [500] ∧
      sentMessages (checkPermission "user_read"
        (storeDownWorld ⟨"u1", "admin", 900, none⟩ 0) [] ⟨some "Bearer tok", none⟩).1 =
        ["Server error during permission check."] ∧
      nextCalls (checkPermission "user_read" (storeDownWorld ⟨"u1", "admin", 900, none⟩ 0)
        [] ⟨some "Bearer tok", none⟩).1 = 0 :=
  checkPermission_unexpected_failure "user_read"
    (storeDownWorld ⟨"u1", "admin", 900, none⟩ 0) [] ⟨some "Bearer tok", none⟩ "tok"
    ⟨"MongooseServerSelectionError", "connect ECONNREFUSED"⟩ (by decide) (by decide)
    (by decide) (by decide) (Or.inr (Or.inl ⟨⟨"u1", "admin", 900, none⟩, rfl, rfl⟩))

/-- C17, the claim as stated fails: the token `tok-admin` is presented at second
1000, when it has expired; the verifier throws the `TokenExpiredError` of the
library, and the message the guard sends is the message of that error, which
is none of the messages the guard writes itself. -/
theorem checkPermission_sends_error_message :
    (verifyJwtToken sampleDecode 1000000 [] "tok-admin").1 =
        .error ⟨"TokenExpiredError", "jwt expired"⟩ ∧
      sentMessages (checkPermission "user_read" (sampleWorld 1000000) []
        ⟨some "Bearer tok-admin", none⟩).1 = ["jwt expired"] ∧
      "jwt expired" ∉ guardMessages := by
  refine ⟨rfl, ?_, ?_⟩ <;> decide

/-- C17 as amended: every message the guard sends is one of its three fixed
messages, or it is the message of an error named `JsonWebTokenError` or
`TokenExpiredError` that the verification or the store query threw in this
run. -/
theorem checkPermission_messages (requiredPermission : String) (w : World)
    (cache : TokenCache) (req : Request) (m : String)
    (hm : m ∈ sentMessages (checkPermission requiredPermission w cache req).1) :
    m ∈ guardMessages ∨
      ∃ token e, tokenOf req = some token ∧
        (e.name = "JsonWebTokenError" ∨ e.name = "TokenExpiredError") ∧
        m = e.message ∧
        ((verifyJwtToken w.decode w.now cache token).1 = .error e ∨
          ∃ decoded, (verifyJwtToken w.decode w.now cache token).1 = .ok decoded ∧
            w.findById decoded.id = .error e) := by
  have hcatch : ∀ (e : JsError), m ∈ sentMessages (catchBlock e) →
      m ∈ guardMessages ∨
        ((e.name = "JsonWebTokenError" ∨ e.name = "TokenExpiredError") ∧ m = e.message) := by
    intro e hmem
    rw [sentMessages_catchBlock] at hmem
    by_cases hname : e.name = "JsonWebTokenError" ∨ e.name = "TokenExpiredError"
    · right
      simp only [hname, if_true, List.mem_singleton] at hmem
      exact ⟨hname, hmem⟩
    · left
      simp only [hname, if_false, List.mem_singleton] at hmem
      rw [hmem]
      decide
  by_cases htruthy : truthyString (tokenOf req) = true
  · obtain ⟨token, htoken, hne⟩ := (truthyString_eq_true _).mp htruthy
    cases hv : (verifyJwtToken w.decode w.now cache token).1 with
    | error e =>
      rw [checkPermission_trace_of_verify_error requiredPermission w cache req token e
        htoken hne hv] at hm
      have hm2 : m ∈ sentMessages (catchBlock e) := by
        unfold sentMessages at hm ⊢
        simpa [List.filterMap_cons] using hm
      rcases hcatch e hm2 with hfix | ⟨hname, hmsg⟩
      · exact Or.inl hfix
      · exact Or.inr ⟨token, e, htoken, hname, hmsg, Or.inl hv⟩
    | ok decoded =>
      rw [checkPermission_trace_of_verified requiredPermission w cache req token decoded
        htoken hne hv] at hm
      cases hf : w.findById decoded.id with
      | error e =>
        rw [hf] at hm
        have hm2 : m ∈ sentMessages (catchBlock e) := by
          unfold sentMessages at hm ⊢
          simpa [List.filterMap_cons] using hm
        rcases hcatch e hm2 with hfix | ⟨hname, hmsg⟩
        · exact Or.inl hfix
        · exact Or.inr ⟨token, e, htoken, hname, hmsg, Or.inr ⟨decoded, hv, hf⟩⟩
      | ok found =>
        rw [hf] at hm
        cases found with
        | none =>
          have hm2 : m ∈ sentMessages
              (catchBlock ⟨"ReferenceError", "error is not defined"⟩) := by
            unfold sentMessages at hm ⊢
            simpa [List.filterMap_cons] using hm
          rcases hcatch _ hm2 with hfix | ⟨hname, _⟩
          · exact Or.inl hfix
          · exact absurd hname (by decide)
        | some stored =>
          left
          have hm2 : m ∈ sentMessages
              (authorize requiredPermission (selectMinusPassword stored)) := by
            unfold sentMessages at hm ⊢
            simpa [List.filterMap_cons] using hm
          unfold authorize at hm2
          cases hp : allPermissionsOf (selectMinusPassword stored) with
          | error e =>
            rw [hp] at hm2
            have he := allPermissionsOf_error _ e hp
            subst he
            rcases hcatch _ hm2 with hfix | ⟨hname, _⟩
            · exact hfix
            · exact absurd hname (by decide)
          | ok members =>
            rw [hp] at hm2
            by_cases hmem : requiredPermission ∈ members
            · simp [hmem, sentMessages] at hm2
            · simp [hmem, sentMessages, setForbidden] at hm2
              rw [hm2]
              decide
  · left
    have hfalse : truthyString (tokenOf req) = false := by simpa using htruthy
    rw [checkPermission_trace_of_no_token requiredPermission w cache req hfalse] at hm
    simp [sentMessages, setNotAuthorized] at hm
    rw [hm]
    decide

/-- The run of the amended C17 on the expired token `tok-admin`. -/
theorem checkPermission_messages_witness :
    "jwt expired" ∈ guardMessages ∨
      ∃ token e, tokenOf ⟨some "Bearer tok-admin", none⟩ = some token ∧
        (e.name = "JsonWebTokenError" ∨ e.name = "TokenExpiredError") ∧
        "jwt expired" = e.message ∧
        ((verifyJwtToken (sampleWorld 1000000).decode (sampleWorld 1000000).now []
            token).1 = .error e ∨
          ∃ decoded,
            (verifyJwtToken (sampleWorld 1000000).decode (sampleWorld 1000000).now []
              token).1 = .ok decoded ∧
            (sampleWorld 1000000).findById decoded.id = .error e) :=
  checkPermission_messages "user_read" (sampleWorld 1000000) []
    ⟨some "Bearer tok-admin", none⟩ "jwt expired" (by decide)

/-! ## What the decision depends on -/

/-- C18: two runs of the same guard with the same store, on credentials whose
verified claims carry the same principal id, do the same after the call of
the verifier, whatever else the claims hold (their role values in
particular): same store query, same attached principal, same permission set,
same call of `next` or same response. -/
theorem checkPermission_ignores_claims_role (requiredPermission : String) (w : World)
    (cache1 cache2 : TokenCache) (req1 req2 : Request) (token1 token2 : String)
    (decoded1 decoded2 : Claims)
    (htoken1 : tokenOf req1 = some token1) (hne1 : token1 ≠ "")
    (htoken2 : tokenOf req2 = some token2) (hne2 : token2 ≠ "")
    (hv1 : (verifyJwtToken w.decode w.now cache1 token1).1 = .ok decoded1)
    (hv2 : (verifyJwtToken w.decode w.now cache2 token2).1 = .ok decoded2)
    (hid : decoded1.id = decoded2.id) :
    ∃ rest,
      (checkPermission requiredPermission w cache1 req1).1 = .verifyJwtToken token1 :: rest ∧
      (checkPermission requiredPermission w cache2 req2).1 = .verifyJwtToken token2 :: rest := by
  rw [checkPermission_trace_of_verified requiredPermission w cache1 req1 token1 decoded1
      htoken1 hne1 hv1,
    checkPermission_trace_of_verified requiredPermission w cache2 req2 token2 decoded2
      htoken2 hne2 hv2, hid]
  exact ⟨_, rfl, rfl⟩

/-- The run of C18 on two tokens of the principal `u2`, one issued with the
role `admin` and one with the role `user`, while the store holds `u2` as a
user. -/
theorem checkPermission_ignores_claims_role_witness :
    ((⟨"u2", "admin", 100, none⟩ : Claims).role ≠ (⟨"u2", "user", 900, none⟩ : Claims).role) ∧
    ∃ rest,
      (checkPermission "user_create" ⟨roleChangeDecode, sampleStore, 950000⟩ []
          ⟨some "Bearer tok-old", none⟩).1 = .verifyJwtToken "tok-old" :: rest ∧
      (checkPermission "user_create" ⟨roleChangeDecode, sampleStore, 950000⟩ []
          ⟨some "Bearer tok-new", none⟩).1 = .verifyJwtToken "tok-new" :: rest :=
  ⟨by decide,
    checkPermission_ignores_claims_role "user_create"
      ⟨roleChangeDecode, sampleStore, 950000⟩ [] [] ⟨some "Bearer tok-old", none⟩
      ⟨some "Bearer tok-new", none⟩ "tok-old" "tok-new" ⟨"u2", "admin", 100, none⟩
      ⟨"u2", "user", 900, none⟩ (by decide) (by decide) (by decide) (by decide) rfl rfl rfl⟩

/-- C19, the claim as stated fails: the request carries an Authorization header
with the empty value and the cookie `tok-admin`; the credential handed to the
verifier is the one of the cookie. -/
theorem tokenOf_empty_header_run :
    (⟨some "", some "tok-admin"⟩ : Request).authorization = some "" ∧
      tokenOf ⟨some "", some "tok-admin"⟩ = some "tok-admin" ∧
      verifications (checkPermission "user_read" (sampleWorld 950000) []
        ⟨some "", some "tok-admin"⟩).1 = ["tok-admin"] := by
  refine ⟨rfl, ?_, ?_⟩ <;> decide

/-- C19 as amended: on a request that carries both an Authorization header `h`
and a token cookie `c`, the credential is the header with its first `Bearer `
removed whenever that is not empty, and it is this credential that the
verifier receives; when nothing is left of the header, which happens exactly
for the empty header and for the bare `Bearer `, the credential is the cookie. -/
theorem tokenOf_header_precedence (req : Request) (h c : String)
    (hh : req.authorization = some h) (hc : req.cookieToken = some c) :
    (jsReplace h "Bearer " "" ≠ "" →
        tokenOf req = some (jsReplace h "Bearer " "") ∧
        ∀ requiredPermission w cache,
          verifications (checkPermission requiredPermission w cache req).1 =
            [jsReplace h "Bearer " ""]) ∧
      (jsReplace h "Bearer " "" = "" → tokenOf req = some c) ∧
      (jsReplace h "Bearer " "" = "" ↔ h = "" ∨ h = "Bearer ") := by
  refine ⟨?_, ?_, jsReplace_bearer_eq_empty h⟩
  · intro hne
    have htoken : tokenOf req = some (jsReplace h "Bearer " "") := by
      simp [tokenOf, hh, truthyString, hne]
    exact ⟨htoken, fun requiredPermission w cache =>
      checkPermission_verifications requiredPermission w cache req _ htoken hne⟩
  · intro hempty
    simp [tokenOf, hh, hc, truthyString, hempty]

/-- The run of the amended C19 on a request with the header `Bearer tok-user`
and the cookie `tok-admin`. -/
theorem tokenOf_header_precedence_witness :
    (jsReplace "Bearer tok-user" "Bearer " "" ≠ "" →
        tokenOf ⟨some "Bearer tok-user", some "tok-admin"⟩ =
          some (jsReplace "Bearer tok-user" "Bearer " "") ∧
        ∀ requiredPermission w cache,
          verifications (checkPermission requiredPermission w cache
            ⟨some "Bearer tok-user", some "tok-admin"⟩).1 =
            [jsReplace "Bearer tok-user" "Bearer " ""]) ∧
      (jsReplace "Bearer tok-user" "Bearer " "" = "" →
        tokenOf ⟨some "Bearer tok-user", some "tok-admin"⟩ = some "tok-admin") ∧
      (jsReplace "Bearer tok-user" "Bearer " "" = "" ↔
        "Bearer tok-user" = "" ∨ "Bearer tok-user" = "Bearer ") :=
  tokenOf_header_precedence ⟨some "Bearer tok-user", some "tok-admin"⟩
    "Bearer tok-user" "tok-admin" rfl rfl

/-- C11, the run the code makes: the store returns a principal whose role is the
string `toString`, none of `user`, `employee`, `admin`, and whose grants are
empty; the guard built for `user_read` answers 500, not 403. -/
theorem checkPermission_unlisted_role_run :
    "toString" ∉ ["user", "employee", "admin"] ∧
      (checkPermission "user_read"
          (fixedWorld ⟨"u8", "user", 900, none⟩
            (some ⟨"u8", some "hash8", "toString", some []⟩) 950000)
          [] ⟨some "Bearer tok", none⟩).1 =
        [.verifyJwtToken "tok", .findById "u8",
         .setUser ⟨"u8", none, "toString", some []⟩,
         .error ("permission.middleware.js >>> checkPermission() >>> Unexpected Error: "
           ++ "rolePermissions is not iterable"),
         .status 500, .json "error" "Server error during permission check."] := by
  refine ⟨by decide, ?_⟩
  decide

/-- C12, the runs the code makes: for an employee with the grant
`permission_view` the set is the one the claim names; for a principal whose
role is the string `valueOf` and who holds the grant `permission_view` no set
is built, the computation throws a `TypeError`. -/
theorem allPermissionsOf_union_runs :
    allPermissionsOf ⟨"u3", none, "employee", some ["permission_view"]⟩ =
        .ok ["user_read", "company_read", "permission_view"] ∧
      "permission_view" ∈ (some ["permission_view"] : Option (List String)).getD [] ∧
      allPermissionsOf ⟨"u4", none, "valueOf", some ["permission_view"]⟩ =
        .error ⟨"TypeError", "rolePermissions is not iterable"⟩ := by
  refine ⟨rfl, by decide, rfl⟩

/-! ## The permission catalog, the routes and the token settings -/

/-- C22: no permission occurs twice in `ALL_PERMISSIONS`, although `user_read`
and `company_read` each occur in more than one list of the role table. -/
theorem ALL_PERMISSIONS_nodup :
    ALL_PERMISSIONS.Nodup ∧
      1 < ((ROLE_PERMISSIONS.map Prod.snd).flatten).count "user_read" ∧
      1 < ((ROLE_PERMISSIONS.map Prod.snd).flatten).count "company_read" := by
  refine ⟨?_, ?_, ?_⟩ <;> decide

/-- C23: a permission is in `ALL_PERMISSIONS` exactly when it occurs in the list
of some role of `ROLE_PERMISSIONS` or in `SYSTEM_PERMISSIONS`. -/
theorem mem_ALL_PERMISSIONS (p : String) :
    p ∈ ALL_PERMISSIONS ↔
      (∃ entry ∈ ROLE_PERMISSIONS, p ∈ entry.2) ∨ p ∈ SYSTEM_PERMISSIONS := by
  unfold ALL_PERMISSIONS
  rw [mem_jsSet, List.mem_append, List.mem_flatten]
  constructor
  · rintro (⟨l, hl, hp⟩ | hsys)
    · obtain ⟨entry, hentry, rfl⟩ := List.mem_map.mp hl
      exact Or.inl ⟨entry, hentry, hp⟩
    · exact Or.inr hsys
  · rintro (⟨entry, hentry, hp⟩ | hsys)
    · exact Or.inl ⟨entry.2, List.mem_map.mpr ⟨entry, hentry, rfl⟩, hp⟩
    · exact Or.inr hsys

/-- C28: of the registrations of `user.routes.js` the one without the guard is
`POST /user/login` and no other, and every permission handed to
`checkPermission` there is in `ALL_PERMISSIONS`. -/
theorem userRoutes_guarded :
    ∀ r ∈ userRoutes,
      (r.permission = none ↔ (r.method = "POST" ∧ r.path = "/user/login")) ∧
      ∀ p ∈ r.permission, p ∈ ALL_PERMISSIONS := by
  decide

/-- The statement of C28 at the registration of the route that lists the
permissions. -/
theorem userRoutes_guarded_witness :
    ((⟨"GET", "/user/get-all-permissions", some "permission_view"⟩ : Route).permission = none ↔
        ((⟨"GET", "/user/get-all-permissions", some "permission_view"⟩ : Route).method = "POST" ∧
          (⟨"GET", "/user/get-all-permissions", some "permission_view"⟩ : Route).path
            = "/user/login")) ∧
      ∀ p ∈ (⟨"GET", "/user/get-all-permissions", some "permission_view"⟩ : Route).permission,
        p ∈ ALL_PERMISSIONS :=
  userRoutes_guarded ⟨"GET", "/user/get-all-permissions", some "permission_view"⟩ (by decide)

/-- C25: `generateToken` signs with the configured staging duration when the
configured stage is `staging` and with `24h` in every other stage; the staging
duration is `30d` when the environment does not set it, which is longer than
`24h`; and the value of `JWT_EXPIRES_IN` has no part in the call. -/
theorem generateToken_expiry_selection (env : ProcessEnv) (payload : List (String × String)) :
    ((config env).STAGE = "staging" →
        (generateToken (config env) payload).expiresIn =
          (config env).JWT_STAGING_EXPIRES_IN) ∧
      ((config env).STAGE ≠ "staging" →
        (generateToken (config env) payload).expiresIn = "24h") ∧
      (env.JWT_STAGING_EXPIRES_IN = none → (config env).JWT_STAGING_EXPIRES_IN = "30d") ∧
      (durationSeconds "24h" = some 86400 ∧ durationSeconds "30d" = some 2592000 ∧
        86400 < 2592000) ∧
      ∀ other,
        generateToken
            (config ⟨env.STAGE, env.JWT_SECRET, other, env.JWT_STAGING_EXPIRES_IN⟩) payload =
          generateToken (config env) payload := by
  refine ⟨?_, ?_, ?_, ⟨by decide, by decide, by decide⟩, ?_⟩
  · intro h
    simp [generateToken, ENV_STAGING, h]
  · intro h
    simp [generateToken, ENV_STAGING, h]
  · intro h
    simp [config, envOr, truthyString, h]
  · intro other
    simp [generateToken, config]

/-- C26: `updateProfile` calls `updateById` once, for the same user id, with the
properties of the update object other than `password` and `role`: every other
property (a `permissions` property among them) is handed on with its value,
in the order of the input, and nothing is added. -/
theorem updateProfile_forwards (updateById : UpdateByIdCall → Except JsError (Option JsObject))
    (userId : String) (updateData : JsObject) :
    ∃ safeUpdateData,
      (updateProfile updateById userId updateData).1 =
        [⟨userId, safeUpdateData, "companyEmployee"⟩] ∧
      (∀ k v, (k, v) ∈ safeUpdateData ↔
        (k, v) ∈ updateData ∧ k ≠ "password" ∧ k ≠ "role") ∧
      safeUpdateData.Sublist updateData ∧
      ∀ v, ("permissions", v) ∈ updateData → ("permissions", v) ∈ safeUpdateData := by
  refine ⟨safeUpdateDataOf updateData, ?_, ?_, ?_, ?_⟩
  · unfold updateProfile
    simp only
    cases h : updateById ⟨userId, safeUpdateDataOf updateData, "companyEmployee"⟩ with
    | error e => rfl
    | ok found =>
      cases found with
      | none => rfl
      | some updatedUser => rfl
  · intro k v
    simp [safeUpdateDataOf, List.mem_filter]
  · exact List.filter_sublist _
  · intro v hv
    simp [safeUpdateDataOf, List.mem_filter, hv]

/-! ## The attached principal and the single outcome -/

/-- C21: when the credential verifies and the store holds a record for the id
of the claims, the one value the guard assigns to `req.user` is that record
as the query projects it: it has no password, and its id, role and grants are
those of the stored record. -/
theorem checkPermission_attaches_projection (requiredPermission : String) (w : World)
    (cache : TokenCache) (req : Request) (token : String) (decoded : Claims)
    (stored : UserDoc)
    (htoken : tokenOf req = some token) (hne : token ≠ "")
    (hv : (verifyJwtToken w.decode w.now cache token).1 = .ok decoded)
    (hf : w.findById decoded.id = .ok (some stored)) :
    ∀ u, Event.setUser u ∈ (checkPermission requiredPermission w cache req).1 ↔
      (u.password = none ∧ u._id = stored._id ∧ u.role = stored.role ∧
        u.permissions = stored.permissions) := by
  intro u
  rw [checkPermission_trace_of_principal requiredPermission w cache req token decoded stored
    htoken hne hv hf]
  simp only [List.mem_cons, reduceCtorEq, false_or, Event.setUser.injEq]
  constructor
  · rintro (rfl | hmem)
    · exact ⟨rfl, rfl, rfl, rfl⟩
    · exact absurd hmem (setUser_not_mem_authorize _ _ _)
  · rintro ⟨h1, h2, h3, h4⟩
    left
    obtain ⟨id, pw, role, perms⟩ := u
    simp only at h1 h2 h3 h4
    subst h1 h2 h3 h4
    rfl

/-- The run of C21 on the admin `u1` of the sample store, whose stored record
holds the password hash `hash1`. -/
theorem checkPermission_attaches_projection_witness :
    (sampleStore "u1" = .ok (some ⟨"u1", some "hash1", "admin", some []⟩)) ∧
    ∀ u, Event.setUser u ∈ (checkPermission "user_read" (sampleWorld 950000) []
        ⟨some "Bearer tok-admin", none⟩).1 ↔
      (u.password = none ∧ u._id = "u1" ∧ u.role = "admin" ∧ u.permissions = some []) :=
  ⟨rfl,
    checkPermission_attaches_projection "user_read" (sampleWorld 950000) []
      ⟨some "Bearer tok-admin", none⟩ "tok-admin" ⟨"u1", "admin", 900, some 1000⟩
      ⟨"u1", some "hash1", "admin", some []⟩ (by decide) (by decide) rfl rfl⟩

/-- C27: every run of the guard either calls `next` exactly once and writes no
status and no body, or writes exactly one status, which is 401, 403 or 500,
and exactly one body, and does not call `next`. -/
theorem checkPermission_one_outcome (requiredPermission : String) (w : World)
    (cache : TokenCache) (req : Request) :
    (nextCalls (checkPermission requiredPermission w cache req).1 = 1 ∧
        statusCodes (checkPermission requiredPermission w cache req).1 = [] ∧
        sentMessages (checkPermission requiredPermission w cache req).1 = []) ∨
      (nextCalls (checkPermission requiredPermission w cache req).1 = 0 ∧
        (statusCodes (checkPermission requiredPermission w cache req).1 = [401] ∨
          statusCodes (checkPermission requiredPermission w cache req).1 = [403] ∨
          statusCodes (checkPermission requiredPermission w cache req).1 = [500]) ∧
        ∃ m, sentMessages (checkPermission requiredPermission w cache req).1 = [m]) := by
  have key : OneOutcome (checkPermission requiredPermission w cache req).1 := by
    by_cases htruthy : truthyString (tokenOf req) = true
    · obtain ⟨token, htoken, hne⟩ := (truthyString_eq_true _).mp htruthy
      cases hv : (verifyJwtToken w.decode w.now cache token).1 with
      | error e =>
        rw [checkPermission_trace_of_verify_error requiredPermission w cache req token e
          htoken hne hv]
        exact oneOutcome_cons _ _ (Or.inl ⟨_, rfl⟩) (oneOutcome_catchBlock e)
      | ok decoded =>
        rw [checkPermission_trace_of_verified requiredPermission w cache req token decoded
          htoken hne hv]
        apply oneOutcome_cons _ _ (Or.inl ⟨_, rfl⟩)
        cases hf : w.findById decoded.id with
        | error e =>
          exact oneOutcome_cons _ _ (Or.inr (Or.inl ⟨_, rfl⟩)) (oneOutcome_catchBlock e)
        | ok found =>
          cases found with
          | none =>
            exact oneOutcome_cons _ _ (Or.inr (Or.inl ⟨_, rfl⟩)) (oneOutcome_catchBlock _)
          | some stored =>
            exact oneOutcome_cons _ _ (Or.inr (Or.inl ⟨_, rfl⟩))
              (oneOutcome_cons _ _ (Or.inr (Or.inr ⟨_, rfl⟩))
                (oneOutcome_authorize _ _))
    · have hfalse : truthyString (tokenOf req) = false := by simpa using htruthy
      rw [checkPermission_trace_of_no_token requiredPermission w cache req hfalse]
      right
      simp [nextCalls, statusCodes, sentMessages, setNotAuthorized, responseStatus]
  exact key

/-! ## System permissions, the Bearer scheme and the page window -/

/-- C24: no system permission occurs in the list of any role of the table, and
for a principal whose role is one of the table and whose grants are empty or
absent the guard built for `permission_view` answers 403 and does not call
`next`. -/
theorem checkPermission_system_permission_forbidden (w : World) (cache : TokenCache)
    (req : Request) (token : String) (decoded : Claims) (stored : UserDoc)
    (htoken : tokenOf req = some token) (hne : token ≠ "")
    (hv : (verifyJwtToken w.decode w.now cache token).1 = .ok decoded)
    (hf : w.findById decoded.id = .ok (some stored))
    (hrole : stored.role ∈ ROLE_PERMISSIONS.map Prod.fst)
    (hgrants : stored.permissions = none ∨ stored.permissions = some []) :
    (SYSTEM_PERMISSIONS = ["permission_view"] ∧
      ∀ entry ∈ ROLE_PERMISSIONS, ∀ p ∈ SYSTEM_PERMISSIONS, p ∉ entry.2) ∧
    statusCodes (checkPermission "permission_view" w cache req).1 = [403] ∧
      sentMessages (checkPermission "permission_view" w cache req).1 =
        ["Access denied. Insufficient permissions."] ∧
      nextCalls (checkPermission "permission_view" w cache req).1 = 0 := by
  refine ⟨⟨rfl, by decide⟩, ?_⟩
  have hnot : (selectMinusPassword stored).role ∉ objectPrototypeKeys := by
    simp only [selectMinusPassword]
    simp only [ROLE_PERMISSIONS, ROLE_ADMIN, ROLE_EMPLOYEE, ROLE_USER, List.map_cons,
      List.map_nil, List.mem_cons, List.mem_singleton, List.not_mem_nil, or_false] at hrole
    rcases hrole with h | h | h <;> rw [h] <;> decide
  have hdefaults : "permission_view" ∉
      (ROLE_PERMISSIONS.lookup (selectMinusPassword stored).role).getD [] := by
    simp only [selectMinusPassword]
    simp only [ROLE_PERMISSIONS, ROLE_ADMIN, ROLE_EMPLOYEE, ROLE_USER, List.map_cons,
      List.map_nil, List.mem_cons, List.mem_singleton, List.not_mem_nil, or_false] at hrole
    rcases hrole with h | h | h <;> rw [h] <;> decide
  have hperms : (selectMinusPassword stored).permissions.getD [] = [] := by
    rcases hgrants with h | h <;> simp [selectMinusPassword, h]
  rw [checkPermission_trace_of_principal "permission_view" w cache req token decoded stored
    htoken hne hv hf, authorize_of_not_inherited "permission_view" _ hnot, hperms]
  simp [hdefaults, nextCalls, statusCodes, sentMessages, setForbidden, responseStatus]

/-- The run of C24 on the admin `u1` of the sample store. -/
theorem checkPermission_system_permission_forbidden_witness :
    (SYSTEM_PERMISSIONS = ["permission_view"] ∧
      ∀ entry ∈ ROLE_PERMISSIONS, ∀ p ∈ SYSTEM_PERMISSIONS, p ∉ entry.2) ∧
    statusCodes (checkPermission "permission_view" (sampleWorld 950000) []
        ⟨some "Bearer tok-admin", none⟩).1 = [403] ∧
      sentMessages (checkPermission "permission_view" (sampleWorld 950000) []
        ⟨some "Bearer tok-admin", none⟩).1 =
        ["Access denied. Insufficient permissions."] ∧
      nextCalls (checkPermission "permission_view" (sampleWorld 950000) []
        ⟨some "Bearer tok-admin", none⟩).1 = 0 :=
  checkPermission_system_permission_forbidden (sampleWorld 950000) []
    ⟨some "Bearer tok-admin", none⟩ "tok-admin" ⟨"u1", "admin", 900, some 1000⟩
    ⟨"u1", some "hash1", "admin", some []⟩ (by decide) (by decide) rfl rfl (by decide)
    (Or.inr rfl)

/-- C29: for a header `h` that is not empty and does not contain `Bearer `, the
credential is `h` itself and it is `h` that the verifier receives, whatever
the cookie holds; and for a token `t` that is not empty the header `Bearer `
followed by `t` gives the credential `t`. -/
theorem tokenOf_bearer_not_enforced (h t : String) (cookie : Option String)
    (hne : h ≠ "") (hno : ¬ "Bearer ".toList <:+: h.toList) (ht : t ≠ "") :
    (tokenOf ⟨some h, cookie⟩ = some h ∧
        ∀ requiredPermission w cache,
          verifications (checkPermission requiredPermission w cache ⟨some h, cookie⟩).1
            = [h]) ∧
      (tokenOf ⟨some ("Bearer " ++ t), cookie⟩ = some t ∧
        ∀ requiredPermission w cache,
          verifications
            (checkPermission requiredPermission w cache ⟨some ("Bearer " ++ t), cookie⟩).1
            = [t]) := by
  have h1 : tokenOf ⟨some h, cookie⟩ = some h := by
    simp [tokenOf, jsReplace_bearer_of_absent h hno, truthyString, hne]
  have h2 : tokenOf ⟨some ("Bearer " ++ t), cookie⟩ = some t := by
    simp [tokenOf, jsReplace_bearer_append t, truthyString, ht]
  exact ⟨⟨h1, fun requiredPermission w cache =>
      checkPermission_verifications requiredPermission w cache _ h h1 hne⟩,
    ⟨h2, fun requiredPermission w cache =>
      checkPermission_verifications requiredPermission w cache _ t h2 ht⟩⟩

/-- The run of C29 on the header `tok-admin` without a scheme and on the token
`tok-user`, with the cookie `tok-ghost`. -/
theorem tokenOf_bearer_not_enforced_witness :
    (tokenOf ⟨some "tok-admin", some "tok-ghost"⟩ = some "tok-admin" ∧
        ∀ requiredPermission w cache,
          verifications (checkPermission requiredPermission w cache
            ⟨some "tok-admin", some "tok-ghost"⟩).1 = ["tok-admin"]) ∧
      (tokenOf ⟨some ("Bearer " ++ "tok-user"), some "tok-ghost"⟩ = some "tok-user" ∧
        ∀ requiredPermission w cache,
          verifications (checkPermission requiredPermission w cache
            ⟨some ("Bearer " ++ "tok-user"), some "tok-ghost"⟩).1 = ["tok-user"]) :=
  tokenOf_bearer_not_enforced "tok-admin" "tok-user" (some "tok-ghost") (by decide)
    (by decide) (by decide)

/-- C30, the claim as stated fails: for the page number 9007199254740994 (a
double, 2^53 + 2) the value of `page - 1` is not a double and is rounded, so
`prevPage` is 9007199254740992 and not `page - 1`. -/
theorem paginationOf_large_page_run :
    (1 : Int) ≤ 9007199254740994 ∧
      (paginationOf 9007199254740994 10 35).prevPage = some 9007199254740992 ∧
      (9007199254740992 : ℚ) ≠ ((9007199254740994 : Int) : ℚ) - 1 := by
  refine ⟨by norm_num, ?_, by norm_num⟩
  have h : (paginationOf 9007199254740994 10 35).prevPage =
      some (toDouble (((9007199254740994 : Int) : ℚ) - 1)) := by
    simp only [paginationOf]
    rw [if_pos (by decide)]
  rw [h, toDouble_9007199254740993]

/-- C30 as amended: for a page, a limit and a count below 2^53, with the page
and the limit at least 1 and the count not negative, `totalPages` is the
ceiling of `totalCount / limit` (the least number of pages of that size which
hold all documents), `hasNextPage` holds exactly when
`page * limit < totalCount`, `nextPage` is `page + 1` then and `null`
otherwise, and `prevPage` is `page - 1` when `page > 1` and `null` otherwise. -/
theorem paginationOf_consistent (page limit totalCount : Int)
    (hpage : 1 ≤ page) (hpageB : page < 2 ^ 53)
    (hlimit : 1 ≤ limit) (hlimitB : limit < 2 ^ 53)
    (hcount : 0 ≤ totalCount) (hcountB : totalCount < 2 ^ 53) :
    (paginationOf page limit totalCount).totalPages =
        .finite ⌈(totalCount : ℚ) / (limit : ℚ)⌉ ∧
      (∀ n : Int, ⌈(totalCount : ℚ) / (limit : ℚ)⌉ ≤ n ↔ totalCount ≤ n * limit) ∧
      ((paginationOf page limit totalCount).hasNextPage = true ↔
        page * limit < totalCount) ∧
      (paginationOf page limit totalCount).nextPage =
        (if page * limit < totalCount then some ((page : ℚ) + 1) else none) ∧
      (paginationOf page limit totalCount).prevPage =
        (if 1 < page then some ((page : ℚ) - 1) else none) := by
  have htotal := totalPagesOf_pos totalCount limit hcount hcountB hlimit hlimitB
  have hnext : (paginationOf page limit totalCount).hasNextPage = true ↔
      page * limit < totalCount := by
    simp only [paginationOf, htotal, PageCount.gt, decide_eq_true_eq]
    exact lt_ceil_div_iff totalCount limit page hlimit
  refine ⟨?_, ?_, hnext, ?_, ?_⟩
  · simp only [paginationOf]
    exact htotal
  · intro n
    exact ceil_div_le_iff totalCount limit n hlimit
  · by_cases hlt : page * limit < totalCount
    · have hb := hnext.mpr hlt
      have hsucc : toDouble ((page : ℚ) + 1) = (page : ℚ) + 1 := by
        have hle : page ≤ page * limit := le_mul_of_one_le_right (by omega) hlimit
        have h1 : toDouble (((page + 1 : Int)) : ℚ) = ((page + 1 : Int) : ℚ) :=
          toDouble_intCast (page + 1) (by omega) (by omega)
        simpa using h1
      simp only [paginationOf] at hb ⊢
      simp [hb, hlt, hsucc]
    · have hb : (paginationOf page limit totalCount).hasNextPage = false := by
        cases hc : (paginationOf page limit totalCount).hasNextPage with
        | false => rfl
        | true => exact absurd (hnext.mp hc) hlt
      simp only [paginationOf] at hb ⊢
      simp [hb, hlt]
  · have hpred : toDouble ((page : ℚ) - 1) = (page : ℚ) - 1 := by
      have h1 : toDouble (((page - 1 : Int)) : ℚ) = ((page - 1 : Int) : ℚ) :=
        toDouble_intCast (page - 1) (by omega) (by omega)
      simpa using h1
    simp only [paginationOf, gt_iff_lt]
    by_cases h1 : 1 < page <;> simp [h1, hpred]

/-- The run of the amended C30 on page 2 of 35 documents in pages of 10. -/
theorem paginationOf_consistent_witness :
    (paginationOf 2 10 35).totalPages = .finite ⌈((35 : Int) : ℚ) / ((10 : Int) : ℚ)⌉ ∧
      (∀ n : Int, ⌈((35 : Int) : ℚ) / ((10 : Int) : ℚ)⌉ ≤ n ↔ (35 : Int) ≤ n * 10) ∧
      ((paginationOf 2 10 35).hasNextPage = true ↔ (2 : Int) * 10 < 35) ∧
      (paginationOf 2 10 35).nextPage =
        (if (2 : Int) * 10 < 35 then some (((2 : Int) : ℚ) + 1) else none) ∧
      (paginationOf 2 10 35).prevPage =
        (if (1 : Int) < 2 then some (((2 : Int) : ℚ) - 1) else none) :=
  paginationOf_consistent 2 10 35 (by norm_num) (by norm_num) (by norm_num) (by norm_num)
    (by norm_num) (by norm_num)

end StartupApi
